import Mathlib

/-!
Verification of the danmaku-sender send/verify/reconcile engine.

Shallow embedding of the Python sources under src/src/danmaku_sender:
the SQLite-backed lifecycle store (core/history_manager.py) is modelled as a
list of rows of the sent_danmaku table, systemd mutating operations become pure
functions from store to store; the submission orchestrator loop
(core/bili_sender.py) becomes a structural recursion over the item list with an
explicit environment supplying the API client behaviour, external cancellation
observations and the elapsed-time comparisons; the pacing controller
(core/delay_manager.py) becomes a pure state transformer taking the random draw
as an oracle bounded like random.uniform.
-/

namespace DanmakuSender

/-- Lifecycle status codes, from history_manager.DanmakuStatus (an IntEnum). -/
def DanmakuStatus.PENDING : Int := 0

/-- VERIFIED status code (history_manager.DanmakuStatus.VERIFIED). -/
def DanmakuStatus.VERIFIED : Int := 1

/-- LOST status code (history_manager.DanmakuStatus.LOST). -/
def DanmakuStatus.LOST : Int := 2

/-- core/models/structs.py VideoTarget: identifies where items are submitted. -/
structure VideoTarget where
  bvid : String
  cid : Int
  title : String := ""
deriving DecidableEq, Repr

/-- core/models/danmaku.py Danmaku: one submittable item. -/
structure Danmaku where
  msg : String
  progress : Int
  mode : Int := 1
  fontsize : Int := 25
  color : Int := 16777215
  dmid : String := ""
  is_valid : Bool := true
deriving DecidableEq, Repr

/-- One row of the sent_danmaku table (history_manager._init_db). -/
structure SentDanmakuRow where
  dmid : String
  cid : Int
  bvid : String
  msg : String
  progress : Int
  mode : Int
  fontsize : Int
  color : Int
  ctime : Rat
  is_visible : Int
  status : Int
deriving DecidableEq, Repr

/-- The lifecycle store: contents of the sent_danmaku table, in rowid order. -/
abbrev HistoryDB := List SentDanmakuRow

/-- HistoryManager.record_danmaku: INSERT OR IGNORE of a PENDING row keyed by
dmid; a no-op when the dmid is empty (the guard at the top of the function) or
when a row with that primary key already exists.  `now` stands for the
time.time() call. -/
def record_danmaku (db : HistoryDB) (target : VideoTarget) (dm : Danmaku)
    (is_visible_api : Bool) (now : Rat) : HistoryDB :=
  if dm.dmid = "" then db
  else if db.any (fun r => r.dmid == dm.dmid) then db
  else db ++ [{ dmid := dm.dmid, cid := target.cid, bvid := target.bvid,
                msg := dm.msg, progress := dm.progress, mode := dm.mode,
                fontsize := dm.fontsize, color := dm.color, ctime := now,
                is_visible := if is_visible_api then 1 else 0,
                status := DanmakuStatus.PENDING }]

/-- HistoryManager.verify_dmids: returns 0 and leaves the store alone on an
empty id list; otherwise UPDATE sent_danmaku SET status = VERIFIED WHERE dmid
IN ids AND status = PENDING, returning the number of rows updated
(cursor.rowcount). -/
def verify_dmids (db : HistoryDB) (verified_dmids : List String) :
    HistoryDB × Int :=
  if verified_dmids = [] then (db, 0)
  else
    (db.map (fun r =>
        if r.dmid ∈ verified_dmids ∧ r.status = DanmakuStatus.PENDING then
          { r with status := DanmakuStatus.VERIFIED }
        else r),
     (db.countP (fun r =>
        decide (r.dmid ∈ verified_dmids ∧ r.status = DanmakuStatus.PENDING)) : Int))

/-- HistoryManager.mark_as_lost: under the given cid, every PENDING row whose
dmid is not in the supplied list becomes LOST; with an empty list the NOT IN
filter is dropped and every PENDING row under the cid becomes LOST (the two
branches of the Python function). -/
def mark_as_lost (db : HistoryDB) (cid : Int) (verified_dmids : List String) :
    HistoryDB :=
  if verified_dmids = [] then
    db.map (fun r =>
      if r.cid = cid ∧ r.status = DanmakuStatus.PENDING then
        { r with status := DanmakuStatus.LOST }
      else r)
  else
    db.map (fun r =>
      if r.cid = cid ∧ r.status = DanmakuStatus.PENDING ∧
          r.dmid ∉ verified_dmids then
        { r with status := DanmakuStatus.LOST }
      else r)

/-- HistoryManager.get_stats: (COUNT(*), SUM(status = VERIFIED),
SUM(status = LOST)) over the rows of the given cid. -/
def get_stats (db : HistoryDB) (cid : Int) : Int × Int × Int :=
  ((db.countP (fun r => r.cid == cid) : Int),
   (db.countP (fun r => r.cid == cid && r.status == DanmakuStatus.VERIFIED) : Int),
   (db.countP (fun r => r.cid == cid && r.status == DanmakuStatus.LOST) : Int))

/-- HistoryManager.count_records: rows matching the target cid and the item
fingerprint (msg, mode, color, fontsize, progress) whose status is PENDING or
VERIFIED. -/
def count_records (db : HistoryDB) (target : VideoTarget) (dm : Danmaku) : Nat :=
  db.countP (fun r =>
    decide (r.cid = target.cid ∧ r.msg = dm.msg ∧ r.mode = dm.mode ∧
      r.color = dm.color ∧ r.fontsize = dm.fontsize ∧
      r.progress = dm.progress ∧
      (r.status = DanmakuStatus.PENDING ∨ r.status = DanmakuStatus.VERIFIED)))

/-- Stores reachable from the empty table through the store's mutating
operations. -/
inductive ReachableDB : HistoryDB → Prop
  | empty : ReachableDB []
  | record (db : HistoryDB) (t : VideoTarget) (dm : Danmaku) (v : Bool)
      (now : Rat) : ReachableDB db → ReachableDB (record_danmaku db t dm v now)
  | verify (db : HistoryDB) (ids : List String) :
      ReachableDB db → ReachableDB (verify_dmids db ids).1
  | markLost (db : HistoryDB) (cid : Int) (ids : List String) :
      ReachableDB db → ReachableDB (mark_as_lost db cid ids)

theorem length_record_le (db : HistoryDB) (t : VideoTarget) (dm : Danmaku)
    (v : Bool) (now : Rat) :
    db.length ≤ (record_danmaku db t dm v now).length := by
  unfold record_danmaku
  split
  · exact le_rfl
  · split
    · exact le_rfl
    · simp

theorem record_get?_of_lt (db : HistoryDB) (t : VideoTarget) (dm : Danmaku)
    (v : Bool) (now : Rat) (i : Nat) (hi : i < db.length) :
    (record_danmaku db t dm v now).get? i = db.get? i := by
  unfold record_danmaku
  split
  · rfl
  · split
    · rfl
    · exact List.get?_append hi

/-- C1: once a record's status is VERIFIED or LOST, no store operation changes
that record: record_danmaku never touches an existing row, and verify_dmids and
mark_as_lost only transition PENDING rows, so the row (identified by its
position, hence by its dmid primary key) is left exactly as it was. -/
theorem terminal_status_never_changes (db : HistoryDB) (i : Nat)
    (r : SentDanmakuRow) (hget : db.get? i = some r)
    (hterm : r.status = DanmakuStatus.VERIFIED ∨ r.status = DanmakuStatus.LOST) :
    (∀ t dm v now, (record_danmaku db t dm v now).get? i = some r) ∧
    (∀ ids, (verify_dmids db ids).1.get? i = some r) ∧
    (∀ cid ids, (mark_as_lost db cid ids).get? i = some r) := by
  have hi : i < db.length := by
    by_contra h
    rw [List.get?_eq_none.mpr (Nat.le_of_not_lt h)] at hget
    exact Option.noConfusion hget
  have hnp : ¬ r.status = DanmakuStatus.PENDING := by
    rcases hterm with h | h <;> rw [h] <;> decide
  refine ⟨?_, ?_, ?_⟩
  · intro t dm v now
    rw [record_get?_of_lt db t dm v now i hi, hget]
  · intro ids
    unfold verify_dmids
    split
    · exact hget
    · simp only [List.get?_map, hget, Option.map_some']
      rw [if_neg (fun h => hnp h.2)]
  · intro cid ids
    unfold mark_as_lost
    split
    · simp only [List.get?_map, hget, Option.map_some']
      rw [if_neg (fun h => hnp h.2)]
    · simp only [List.get?_map, hget, Option.map_some']
      rw [if_neg (fun h => hnp h.2.1)]

/-- A concrete VERIFIED row used to witness the store theorems. -/
def rowVerifiedA : SentDanmakuRow :=
  { dmid := "A", cid := 7, bvid := "BV1x", msg := "hello", progress := 1000,
    mode := 1, fontsize := 25, color := 16777215, ctime := 0, is_visible := 1,
    status := DanmakuStatus.VERIFIED }

theorem terminal_status_never_changes_witness :
    (rowVerifiedA.status = DanmakuStatus.VERIFIED ∨
      rowVerifiedA.status = DanmakuStatus.LOST) ∧
    (verify_dmids [rowVerifiedA] ["A"]).1.get? 0 = some rowVerifiedA ∧
    (mark_as_lost [rowVerifiedA] 7 []).get? 0 = some rowVerifiedA := by
  have h := terminal_status_never_changes [rowVerifiedA] 0 rowVerifiedA rfl
    (Or.inl rfl)
  exact ⟨Or.inl rfl, h.2.1 ["A"], h.2.2 7 []⟩

/-- C6: record_danmaku is an idempotent insert: once a row with the provider id
exists, any later call with the same dmid (whatever the other fields) is a
no-op, and a single successful insert leaves exactly one row with that id. -/
theorem record_danmaku_idempotent (db : HistoryDB) (t t2 : VideoTarget)
    (dm dm2 : Danmaku) (v v2 : Bool) (now now2 : Rat)
    (hid : dm.dmid ≠ "") (hsame : dm2.dmid = dm.dmid)
    (hnot : ∀ r ∈ db, r.dmid ≠ dm.dmid) :
    record_danmaku (record_danmaku db t dm v now) t2 dm2 v2 now2 =
      record_danmaku db t dm v now ∧
    (record_danmaku db t dm v now).countP
      (fun r => decide (r.dmid = dm.dmid)) = 1 ∧
    (∀ db2 : HistoryDB, (∃ r ∈ db2, r.dmid = dm2.dmid) →
      record_danmaku db2 t2 dm2 v2 now2 = db2) := by
  have hnoop : ∀ db2 : HistoryDB, (∃ r ∈ db2, r.dmid = dm2.dmid) →
      record_danmaku db2 t2 dm2 v2 now2 = db2 := by
    intro db2 ⟨r, hr, hrid⟩
    unfold record_danmaku
    rw [if_neg (by rw [hsame]; exact hid)]
    rw [if_pos]
    exact List.any_eq_true.mpr ⟨r, hr, by simp [hrid]⟩
  have hins : record_danmaku db t dm v now =
      db ++ [{ dmid := dm.dmid, cid := t.cid, bvid := t.bvid, msg := dm.msg,
               progress := dm.progress, mode := dm.mode,
               fontsize := dm.fontsize, color := dm.color, ctime := now,
               is_visible := if v then 1 else 0,
               status := DanmakuStatus.PENDING }] := by
    unfold record_danmaku
    rw [if_neg hid, if_neg]
    intro h
    obtain ⟨r, hr, hrid⟩ := List.any_eq_true.mp h
    exact hnot r hr (by simpa using hrid)
  refine ⟨?_, ?_, hnoop⟩
  · apply hnoop
    rw [hins]
    exact ⟨_, List.mem_append_right _ (List.mem_singleton_self _), hsame.symm⟩
  · rw [hins, List.countP_append]
    have h0 : db.countP (fun r => decide (r.dmid = dm.dmid)) = 0 := by
      rw [List.countP_eq_zero]
      intro r hr
      simpa using hnot r hr
    simp [h0]

theorem record_danmaku_idempotent_witness :
    (("A" : String) ≠ "") ∧
    record_danmaku (record_danmaku [] ⟨"BV1x", 7, ""⟩
        { msg := "hi", progress := 5, dmid := "A" } true 0)
        ⟨"BV2y", 9, ""⟩ { msg := "other", progress := 6, dmid := "A" } false 1 =
      record_danmaku [] ⟨"BV1x", 7, ""⟩
        { msg := "hi", progress := 5, dmid := "A" } true 0 ∧
    (record_danmaku [] ⟨"BV1x", 7, ""⟩
        { msg := "hi", progress := 5, dmid := "A" } true 0).countP
      (fun r => decide (r.dmid = "A")) = 1 := by
  have h := record_danmaku_idempotent [] ⟨"BV1x", 7, ""⟩ ⟨"BV2y", 9, ""⟩
    { msg := "hi", progress := 5, dmid := "A" }
    { msg := "other", progress := 6, dmid := "A" } true false 0 1
    (by decide) rfl (by intro r hr; cases hr)
  exact ⟨by decide, h.1, h.2.1⟩

/-- C10: recording an item with an empty provider id is a no-op (the guard at
the top of record_danmaku returns before any insert), and consequently every
row of any store reachable through the store operations has a non-empty dmid. -/
theorem record_empty_dmid_noop :
    (∀ (db : HistoryDB) (t : VideoTarget) (dm : Danmaku) (v : Bool) (now : Rat),
      dm.dmid = "" → record_danmaku db t dm v now = db) ∧
    (∀ db : HistoryDB, ReachableDB db → ∀ r ∈ db, r.dmid ≠ "") := by
  constructor
  · intro db t dm v now h
    unfold record_danmaku
    rw [if_pos h]
  · intro db hdb
    induction hdb with
    | empty => intro r hr; cases hr
    | record db t dm v now _ ih =>
        intro r hr
        unfold record_danmaku at hr
        split at hr
        · exact ih r hr
        · split at hr
          · exact ih r hr
          · rcases List.mem_append.mp hr with h | h
            · exact ih r h
            · rw [List.mem_singleton] at h
              subst h
              rename_i hne _
              exact hne
    | verify db ids _ ih =>
        intro r hr
        unfold verify_dmids at hr
        split at hr
        · exact ih r hr
        · obtain ⟨r0, hr0, heq⟩ := List.mem_map.mp hr
          subst heq
          split
          · exact ih r0 hr0
          · exact ih r0 hr0
    | markLost db cid ids _ ih =>
        intro r hr
        unfold mark_as_lost at hr
        split at hr
        all_goals
          obtain ⟨r0, hr0, heq⟩ := List.mem_map.mp hr
          subst heq
          split
          · exact ih r0 hr0
          · exact ih r0 hr0

theorem record_empty_dmid_noop_witness :
    record_danmaku [rowVerifiedA] ⟨"BV1x", 7, ""⟩ { msg := "hi", progress := 5 }
      true 0 = [rowVerifiedA] ∧
    ∀ r ∈ (verify_dmids [] ["A"]).1, r.dmid ≠ "" := by
  refine ⟨record_empty_dmid_noop.1 [rowVerifiedA] ⟨"BV1x", 7, ""⟩
    { msg := "hi", progress := 5 } true 0 rfl, ?_⟩
  exact record_empty_dmid_noop.2 _ (ReachableDB.verify [] ["A"] ReachableDB.empty)

/-- A PENDING row under cid 2, used to refute the sub-resource scoping of
verify in C5. -/
def rowPendingD : SentDanmakuRow :=
  { dmid := "D", cid := 2, bvid := "BV9z", msg := "text", progress := 42,
    mode := 1, fontsize := 25, color := 16777215, ctime := 0, is_visible := 1,
    status := DanmakuStatus.PENDING }

/-- C5 counterexample: verify_dmids is not scoped to a sub-resource.  In the
store [rowPendingD] there is no PENDING record under cid 1 at all (so the
claimed set P of PENDING ids under X = 1 is empty and P ∩ L = ∅, meaning the
claim asserts the store is left unchanged), yet verify_dmids ["D"] transitions
the record under cid 2. -/
theorem verify_scoped_claim_false :
    (∀ r ∈ [rowPendingD],
      ¬(r.cid = 1 ∧ r.status = DanmakuStatus.PENDING ∧ r.dmid ∈ ["D"])) ∧
    (verify_dmids [rowPendingD] ["D"]).1 ≠ [rowPendingD] := by decide

/-- Three PENDING rows A, B, C under cid 7: the reconciliation scenario of the
spec. -/
def dbABC : HistoryDB :=
  [{ dmid := "A", cid := 7, bvid := "BV1x", msg := "a", progress := 1,
     mode := 1, fontsize := 25, color := 16777215, ctime := 0, is_visible := 1,
     status := DanmakuStatus.PENDING },
   { dmid := "B", cid := 7, bvid := "BV1x", msg := "b", progress := 2,
     mode := 1, fontsize := 25, color := 16777215, ctime := 0, is_visible := 1,
     status := DanmakuStatus.PENDING },
   { dmid := "C", cid := 7, bvid := "BV1x", msg := "c", progress := 3,
     mode := 1, fontsize := 25, color := 16777215, ctime := 0, is_visible := 1,
     status := DanmakuStatus.PENDING }]

/-- C5 amended: verify_dmids transitions exactly the PENDING rows of the whole
store whose dmid is in L (it is not scoped to a sub-resource) and returns the
number of rows transitioned; mark_as_lost transitions exactly the PENDING rows
under the given cid whose dmid is not in L, and with an empty L every PENDING
row under the cid; in the spec scenario with A, B, C pending under cid 7 and
live set A, C, after verify A and C are VERIFIED and B is PENDING, and after
mark_as_lost B is LOST. -/
theorem verify_mark_lost_characterization (db : HistoryDB) (L : List String)
    (X : Int) :
    (verify_dmids db L).1 = db.map (fun r =>
        if r.dmid ∈ L ∧ r.status = DanmakuStatus.PENDING then
          { r with status := DanmakuStatus.VERIFIED }
        else r) ∧
    (verify_dmids db L).2 = (db.countP (fun r =>
        decide (r.dmid ∈ L ∧ r.status = DanmakuStatus.PENDING)) : Int) ∧
    mark_as_lost db X L = db.map (fun r =>
        if r.cid = X ∧ r.status = DanmakuStatus.PENDING ∧ r.dmid ∉ L then
          { r with status := DanmakuStatus.LOST }
        else r) ∧
    ((verify_dmids dbABC ["A", "C"]).1.map SentDanmakuRow.status =
        [DanmakuStatus.VERIFIED, DanmakuStatus.PENDING,
         DanmakuStatus.VERIFIED]) ∧
    ((mark_as_lost (verify_dmids dbABC ["A", "C"]).1 7 ["A", "C"]).map
        SentDanmakuRow.status =
      [DanmakuStatus.VERIFIED, DanmakuStatus.LOST, DanmakuStatus.VERIFIED]) := by
  refine ⟨?_, ?_, ?_, by decide, by decide⟩
  · unfold verify_dmids
    split
    · rename_i h
      subst h
      simp
    · rfl
  · unfold verify_dmids
    split
    · rename_i h
      subst h
      simp
    · rfl
  · unfold mark_as_lost
    split
    · rename_i h
      subst h
      simp
    · rfl

/-- The stats record reported by the reconciliation monitor callback. -/
structure MonitorStats where
  total : Int
  verified : Int
  pending : Int
  lost : Int
deriving DecidableEq, Repr

/-- Modelled from the spec: the Reconciliation Monitor's per-tick body is
missing from src (the worker in core/workers.py constructs a monitor that takes
the target and feeds a stats dict with keys total / verified / pending / lost
to its callback, but no such monitor exists under src — core/bili_monitor.py
has an incompatible constructor and never touches the store — and the store's
verify_dmids / get_stats have no callers).  Per the spec, on each tick that
completes a listing fetch the monitor extracts the set of provider-assigned ids
present in the live listing, calls the store's verify with that set, then reads
getStats and reports total, verified, pending = total - verified - lost and
lost via the callback; it never marks records LOST. -/
def monitorTick (db : HistoryDB) (cid : Int) (listing : List Danmaku) :
    HistoryDB × Int × MonitorStats :=
  let liveIds := (listing.map Danmaku.dmid).filter (fun s => !(s == ""))
  let vr := verify_dmids db liveIds
  let st := get_stats vr.1 cid
  (vr.1, vr.2,
   { total := st.1, verified := st.2.1, pending := st.1 - st.2.1 - st.2.2,
     lost := st.2.2 })

/-- C8: a monitor tick verifies the ids present in the live listing and reports
the store stats with pending = total - verified - lost; it changes each row
either not at all or from PENDING to VERIFIED — in particular it never marks
any record LOST. -/
theorem monitor_tick_reports_and_never_marks_lost (db : HistoryDB) (cid : Int)
    (listing : List Danmaku) :
    (monitorTick db cid listing).1.length = db.length ∧
    (∀ i r r', db.get? i = some r →
      (monitorTick db cid listing).1.get? i = some r' →
      (r' = r ∨ (r.status = DanmakuStatus.PENDING ∧
        r' = { r with status := DanmakuStatus.VERIFIED }))) ∧
    ((monitorTick db cid listing).2.2.total =
        (get_stats (monitorTick db cid listing).1 cid).1 ∧
     (monitorTick db cid listing).2.2.verified =
        (get_stats (monitorTick db cid listing).1 cid).2.1 ∧
     (monitorTick db cid listing).2.2.lost =
        (get_stats (monitorTick db cid listing).1 cid).2.2 ∧
     (monitorTick db cid listing).2.2.pending =
        (get_stats (monitorTick db cid listing).1 cid).1 -
        (get_stats (monitorTick db cid listing).1 cid).2.1 -
        (get_stats (monitorTick db cid listing).1 cid).2.2) := by
  have hchar := verify_mark_lost_characterization db
    ((listing.map Danmaku.dmid).filter (fun s => !(s == ""))) cid
  refine ⟨?_, ?_, rfl, rfl, rfl, rfl⟩
  · show (verify_dmids db _).1.length = db.length
    rw [hchar.1, List.length_map]
  · intro i r r' hget hget'
    show r' = r ∨ _
    have : (verify_dmids db
        ((listing.map Danmaku.dmid).filter (fun s => !(s == "")))).1.get? i =
        some r' := hget'
    rw [hchar.1, List.get?_map, hget, Option.map_some'] at this
    have hr' := Option.some.inj this
    by_cases hc : r.dmid ∈ (listing.map Danmaku.dmid).filter (fun s => !(s == "")) ∧
        r.status = DanmakuStatus.PENDING
    · rw [if_pos hc] at hr'
      exact Or.inr ⟨hc.2, hr'.symm⟩
    · rw [if_neg hc] at hr'
      exact Or.inl hr'.symm

/-- The B row of dbABC (still PENDING after a tick whose listing lacks B). -/
def rowB7 : SentDanmakuRow :=
  { dmid := "B", cid := 7, bvid := "BV1x", msg := "b", progress := 2,
    mode := 1, fontsize := 25, color := 16777215, ctime := 0, is_visible := 1,
    status := DanmakuStatus.PENDING }

/-- The live listing containing A and C, as parsed online danmakus. -/
def listingAC : List Danmaku :=
  [{ msg := "a", progress := 1, dmid := "A" },
   { msg := "c", progress := 3, dmid := "C" }]

theorem monitor_tick_witness :
    (monitorTick dbABC 7 listingAC).2.2 =
      { total := 3, verified := 2, pending := 1, lost := 0 } ∧
    (rowB7 = rowB7 ∨
      (rowB7.status = DanmakuStatus.PENDING ∧
        rowB7 = { rowB7 with status := DanmakuStatus.VERIFIED })) := by
  have h := monitor_tick_reports_and_never_marks_lost dbABC 7 listingAC
  exact ⟨by decide, h.2.1 1 rowB7 rowB7 (by decide) (by decide)⟩

/-- core/delay_manager.py DelayManager: pacing configuration plus the internal
submission counter _current_count. -/
structure DelayManager where
  normal_min : Rat
  normal_max : Rat
  burst_size : Int := 0
  rest_min : Rat := 0
  rest_max : Rat := 0
  current_count : Nat := 0
deriving DecidableEq, Repr

/-- Result of one wait_and_check_stop call: whether a stop was observed, the
delay drawn (none when the call returned early on an already-set stop event),
and the updated manager state. -/
structure WaitOutcome where
  stopped : Bool
  delay : Option Rat
  state : DelayManager
deriving DecidableEq, Repr

/-- DelayManager.wait_and_check_stop: returns immediately when the stop event
is already set; otherwise increments the counter, draws a long-rest delay from
uniform(rest_min, rest_max) when burst_size > 1 and the incremented counter is
divisible by burst_size, else from uniform(normal_min, normal_max), and waits
(the wait reports a stop when the event is set during it).  `uniform` is the
random.uniform oracle; `stop_during_wait` is whether the event gets set while
waiting. -/
def wait_and_check_stop (d : DelayManager) (stop_at_entry : Bool)
    (stop_during_wait : Bool) (uniform : Rat → Rat → Rat) : WaitOutcome :=
  if stop_at_entry then { stopped := true, delay := none, state := d }
  else
    let cnt := d.current_count + 1
    let delay :=
      if d.burst_size > 1 ∧ (cnt : Int) % d.burst_size = 0 then
        uniform d.rest_min d.rest_max
      else uniform d.normal_min d.normal_max
    { stopped := stop_during_wait, delay := some delay,
      state := { d with current_count := cnt } }

/-- C9: a wait that is not cut short by an already-set stop event increments
the submission counter, and the delay drawn lies in [rest_min, rest_max] when
burst mode is on and the incremented counter is divisible by burst_size, and
in [normal_min, normal_max] otherwise (assuming the uniform draw respects its
bounds, as random.uniform does for min ≤ max). -/
theorem wait_delay_bounds (d : DelayManager) (sw : Bool)
    (uniform : Rat → Rat → Rat)
    (hdraw : ∀ a b : Rat, a ≤ b → a ≤ uniform a b ∧ uniform a b ≤ b)
    (hn : d.normal_min ≤ d.normal_max) (hr : d.rest_min ≤ d.rest_max) :
    (wait_and_check_stop d false sw uniform).state.current_count =
      d.current_count + 1 ∧
    ∃ x, (wait_and_check_stop d false sw uniform).delay = some x ∧
      ((d.burst_size > 1 ∧ ((d.current_count : Int) + 1) % d.burst_size = 0 →
          d.rest_min ≤ x ∧ x ≤ d.rest_max) ∧
       (¬(d.burst_size > 1 ∧ ((d.current_count : Int) + 1) % d.burst_size = 0) →
          d.normal_min ≤ x ∧ x ≤ d.normal_max)) := by
  unfold wait_and_check_stop
  rw [if_neg Bool.false_ne_true]
  refine ⟨rfl, ?_⟩
  by_cases hb : d.burst_size > 1 ∧ ((d.current_count : Int) + 1) % d.burst_size = 0
  · refine ⟨uniform d.rest_min d.rest_max, ?_, fun _ => hdraw _ _ hr, fun h => absurd hb h⟩
    simp only [Nat.cast_add, Nat.cast_one] at hb ⊢
    rw [if_pos hb]
  · refine ⟨uniform d.normal_min d.normal_max, ?_, fun h => absurd h hb, fun _ => hdraw _ _ hn⟩
    simp only [Nat.cast_add, Nat.cast_one] at hb ⊢
    rw [if_neg hb]

/-- A concrete pacing configuration about to take its 5th wait. -/
def delayW : DelayManager :=
  { normal_min := 1, normal_max := 2, burst_size := 5, rest_min := 40,
    rest_max := 45, current_count := 4 }

theorem wait_delay_bounds_witness :
    ((1 : Rat) ≤ 2 ∧ (40 : Rat) ≤ 45) ∧
    (wait_and_check_stop delayW false false (fun a _ => a)).state.current_count
      = 5 ∧
    ∃ x, (wait_and_check_stop delayW false false (fun a _ => a)).delay = some x ∧
      ((delayW.burst_size > 1 ∧
          ((delayW.current_count : Int) + 1) % delayW.burst_size = 0 →
          delayW.rest_min ≤ x ∧ x ≤ delayW.rest_max) ∧
       (¬(delayW.burst_size > 1 ∧
          ((delayW.current_count : Int) + 1) % delayW.burst_size = 0) →
          delayW.normal_min ≤ x ∧ x ≤ delayW.normal_max)) := by
  have h := wait_delay_bounds delayW false (fun a _ => a)
    (fun a b hab => ⟨le_rfl, hab⟩) (by decide) (by decide)
  exact ⟨⟨by decide, by decide⟩, h.1, h.2⟩

/-- One member of core/models/errors.py BiliDmErrorCode:
(code, description, is_fatal). -/
structure ErrorCodeEntry where
  code : Int
  description : String
  is_fatal : Bool
deriving DecidableEq, Repr

namespace BiliDmErrorCode

def SUCCESS : ErrorCodeEntry := ⟨0, "弹幕发送成功。", false⟩

def UNAUTHORIZED : ErrorCodeEntry :=
  ⟨-101, "账号未登录或登录态失效！请检查SESSDATA和bili_jct。", true⟩

def ACCOUNT_BANNED : ErrorCodeEntry := ⟨-102, "账号被封停。", true⟩

def CSRF_FAILED : ErrorCodeEntry :=
  ⟨-111, "CSRF 校验失败 (bili_jct 可能失效)，请检查登录凭证或尝试重新获取。", true⟩

def REQUEST_ERROR : ErrorCodeEntry := ⟨-400, "请求错误，参数不合法。", false⟩

def NOT_FOUND : ErrorCodeEntry := ⟨-404, "请求资源不存在。", true⟩

def SYSTEM_UPGRADING : ErrorCodeEntry := ⟨36700, "系统升级中，暂无法发送弹幕。", true⟩

def CONTENT_FORBIDDEN : ErrorCodeEntry :=
  ⟨36701, "弹幕包含被禁止的内容，请修改后重试。", false⟩

def DANMAKU_TOO_LONG : ErrorCodeEntry := ⟨36702, "弹幕长度大于100字，请精简。", false⟩

def FREQ_LIMIT : ErrorCodeEntry :=
  ⟨36703, "发送频率过快，请降低发送速度或稍后再试。", false⟩

def VIDEO_NOT_REVIEWED : ErrorCodeEntry :=
  ⟨36704, "禁止向未审核的视频发送弹幕。", true⟩

def LEVEL_INSUFFICIENT_GENERAL : ErrorCodeEntry :=
  ⟨36705, "您的等级不足，不能发送弹幕。", true⟩

def LEVEL_INSUFFICIENT_TOP : ErrorCodeEntry :=
  ⟨36706, "您的等级不足，不能发送顶端弹幕。", false⟩

def LEVEL_INSUFFICIENT_BOTTOM : ErrorCodeEntry :=
  ⟨36707, "您的等级不足，不能发送底端弹幕。", false⟩

def LEVEL_INSUFFICIENT_COLOR : ErrorCodeEntry :=
  ⟨36708, "您的等级不足，不能发送彩色弹幕。", false⟩

def LEVEL_INSUFFICIENT_ADVANCED : ErrorCodeEntry :=
  ⟨36709, "您的等级不足，不能发送高级弹幕。", false⟩

def PERMISSION_INSUFFICIENT_STYLE : ErrorCodeEntry :=
  ⟨36710, "您的权限不足，不能发送这种样式的弹幕。", false⟩

def VIDEO_DANMAKU_FORBIDDEN : ErrorCodeEntry :=
  ⟨36711, "该视频禁止发送弹幕，无法发送。", true⟩

def LENGTH_LIMIT_LEVEL1 : ErrorCodeEntry :=
  ⟨36712, "Level 1用户发送弹幕的最大长度为20字。", false⟩

def VIDEO_NOT_PAID : ErrorCodeEntry :=
  ⟨36713, "此稿件未付费，暂时无法发送弹幕。", true⟩

def INVALID_PROGRESS : ErrorCodeEntry :=
  ⟨36714, "弹幕发送时间（progress）不合法。", false⟩

def DAILY_LIMIT_EXCEEDED : ErrorCodeEntry :=
  ⟨36715, "当日操作数量超过上限。", false⟩

def NOT_PREMIUM_MEMBER : ErrorCodeEntry :=
  ⟨36718, "目前您不是大会员，无法使用会员权益。", false⟩

def NETWORK_ERROR : ErrorCodeEntry :=
  ⟨-9999, "发送弹幕时发生网络或请求异常。请检查您的网络连接。", true⟩

def UNKNOWN_ERROR : ErrorCodeEntry :=
  ⟨-9998, "发送弹幕时发生未知异常，请联系开发者或稍后再试。", true⟩

def TIMEOUT_ERROR : ErrorCodeEntry :=
  ⟨-9997, "发送弹幕请求超时，请检查网络或稍后再试。", true⟩

def CONNECTION_ERROR : ErrorCodeEntry :=
  ⟨-9996, "发送弹幕时网络连接异常，请检查网络或稍后再试。", true⟩

def GENERIC_FAILURE : ErrorCodeEntry :=
  ⟨-1, "操作失败，详见原始消息或尝试稍后再试。", false⟩

/-- The closed enumeration, in declaration order. -/
def entries : List ErrorCodeEntry :=
  [SUCCESS, UNAUTHORIZED, ACCOUNT_BANNED, CSRF_FAILED, REQUEST_ERROR,
   NOT_FOUND, SYSTEM_UPGRADING, CONTENT_FORBIDDEN, DANMAKU_TOO_LONG,
   FREQ_LIMIT, VIDEO_NOT_REVIEWED, LEVEL_INSUFFICIENT_GENERAL,
   LEVEL_INSUFFICIENT_TOP, LEVEL_INSUFFICIENT_BOTTOM,
   LEVEL_INSUFFICIENT_COLOR, LEVEL_INSUFFICIENT_ADVANCED,
   PERMISSION_INSUFFICIENT_STYLE, VIDEO_DANMAKU_FORBIDDEN,
   LENGTH_LIMIT_LEVEL1, VIDEO_NOT_PAID, INVALID_PROGRESS,
   DAILY_LIMIT_EXCEEDED, NOT_PREMIUM_MEMBER, NETWORK_ERROR, UNKNOWN_ERROR,
   TIMEOUT_ERROR, CONNECTION_ERROR, GENERIC_FAILURE]

/-- BiliDmErrorCode.from_code: look the enum member up by its numeric value
(None for an unrecognized code). -/
def from_code (c : Int) : Option ErrorCodeEntry :=
  entries.find? (fun e => e.code == c)

end BiliDmErrorCode

/-- core/models/result.py DanmakuSendResult. -/
structure DanmakuSendResult where
  code : Int
  is_success : Bool
  raw_message : String
  display_message : String
  dmid : String := ""
  is_visible : Bool := true
deriving DecidableEq, Repr

/-- core/exceptions.py BiliApiException. -/
structure BiliApiException where
  code : Int
  message : String
  is_network_error : Bool := false
deriving DecidableEq, Repr

/-- core/error_handler.py normalize_exception, restricted to BiliApiException
(the only exception type the orchestrator loop catches). -/
def normalize_exception (e : BiliApiException) : ErrorCodeEntry :=
  match BiliDmErrorCode.from_code e.code with
  | some found => found
  | none =>
      if e.is_network_error then BiliDmErrorCode.NETWORK_ERROR
      else BiliDmErrorCode.GENERIC_FAILURE

/-- core/state.py SenderConfig, restricted to the fields the orchestrator
reads.  The skip_sent flag is read by BiliDanmakuSender._should_skip
(bili_sender.py line 120); the SenderConfig dataclass in the snapshot lacks
that field, so it appears here as the orchestrator uses it: a plain Bool. -/
structure SenderConfig where
  min_delay : Rat := 8
  max_delay : Rat := 17 / 2
  burst_size : Int := 3
  rest_min : Rat := 40
  rest_max : Rat := 45
  stop_after_count : Int := 0
  stop_after_time : Int := 0
  skip_sent : Bool := false
deriving DecidableEq, Repr

/-- bili_sender.DanmakuFingerprint: (msg, progress, mode, fontsize, color). -/
abbrev DanmakuFingerprint := String × Int × Int × Int × Int

/-- BiliDanmakuSender._get_fingerprint. -/
def get_fingerprint (dm : Danmaku) : DanmakuFingerprint :=
  (dm.msg, dm.progress, dm.mode, dm.fontsize, dm.color)

/-- services/danmaku_exporter.UnsentDanmakusRecord as used by
SendingContext.add_unsent: a record with keys dm and reason. -/
structure UnsentDanmakusRecord where
  dm : Danmaku
  reason : String
deriving DecidableEq, Repr

/-- bili_sender.SendingContext.  The two dicts local_counter and
db_count_cache are modelled as total functions with the dict defaults
(0 resp. absent); start_time only feeds elapsed_minutes, whose comparison the
run environment supplies. -/
structure SendingContext where
  total : Nat
  attempted_count : Nat := 0
  success_count : Nat := 0
  skipped_count : Nat := 0
  auto_stop_reason : String := ""
  fatal_error_occurred : Bool := false
  unsent_records : List UnsentDanmakusRecord := []
  local_counter : DanmakuFingerprint → Nat := fun _ => 0
  db_count_cache : DanmakuFingerprint → Option Nat := fun _ => none

/-- SendingContext.add_unsent on a single danmaku. -/
def SendingContext.add_unsent (ctx : SendingContext) (dm : Danmaku)
    (reason : String) : SendingContext :=
  { ctx with unsent_records := ctx.unsent_records ++ [⟨dm, reason⟩] }

/-- SendingContext.add_unsent on a list of danmakus. -/
def SendingContext.add_unsent_list (ctx : SendingContext) (dms : List Danmaku)
    (reason : String) : SendingContext :=
  { ctx with unsent_records :=
      ctx.unsent_records ++ dms.map (fun dm => ⟨dm, reason⟩) }

/-- A Python exception escaping the embedded code. -/
inductive PyExc
  | attributeError (msg : String)
deriving DecidableEq, Repr

/-- Behaviour of one api_client.post_danmaku call: a JSON response — already
parsed by DanmakuSendResult.from_api_response, which is total, so every
response value is covered — or a raised BiliApiException (the typed exception
the client maps transport failures into). -/
inductive ApiOutcome
  | ok (result : DanmakuSendResult)
  | raised (e : BiliApiException)
deriving DecidableEq, Repr

/-- BiliDanmakuSender._send_single_danmaku.  On a response it assigns the dmid
to the item on success (the extra 10s sleep for code 36703 has no observable
state here).  On a BiliApiException the except-handler evaluates
normalize_exception and then danmaku.get, but Danmaku is a dataclass with no
get method, so the handler itself raises AttributeError — and the
DanmakuSendResult constructor call after it would equally fail, since the
dataclass has no fields named success or message. -/
def send_single_danmaku (outcome : ApiOutcome) (danmaku : Danmaku) :
    Except PyExc (DanmakuSendResult × Danmaku) :=
  match outcome with
  | .ok result =>
      if result.is_success ∧ result.dmid ≠ "" then
        .ok (result, { danmaku with dmid := result.dmid })
      else .ok (result, danmaku)
  | .raised e =>
      let _ := normalize_exception e
      .error (.attributeError "Danmaku object has no attribute get")

/-- BiliDanmakuSender._process_send_result: (is_success, is_fatal_error); an
unrecognized code is replaced by UNKNOWN_ERROR and hence treated as fatal. -/
def process_send_result (result : DanmakuSendResult) : Bool × Bool :=
  if !result.is_success then
    let error_enum :=
      (BiliDmErrorCode.from_code result.code).getD BiliDmErrorCode.UNKNOWN_ERROR
    if error_enum.is_fatal then (false, true) else (false, false)
  else (true, false)

/-- bili_sender.SendFlowAction. -/
inductive SendFlowAction
  | CONTINUE
  | STOP_FATAL
deriving DecidableEq, Repr

/-- BiliDanmakuSender._handle_send_result (the result_callback is an external
collaborator whose exceptions the method swallows, so it is not part of the
loop state). -/
def handle_send_result (dm : Danmaku) (result : DanmakuSendResult)
    (ctx : SendingContext) : SendFlowAction × SendingContext :=
  let pr := process_send_result result
  if pr.2 then
    (.STOP_FATAL,
     ({ ctx with fatal_error_occurred := true }).add_unsent dm
       ("致命错误: " ++ result.display_message))
  else if !pr.1 then
    (.CONTINUE, ctx.add_unsent dm result.display_message)
  else
    (.CONTINUE, { ctx with success_count := ctx.success_count + 1 })

/-- BiliDanmakuSender._should_skip: no-op when the flag is off or no history
manager was supplied; otherwise bumps the in-run occurrence counter for the
fingerprint, reads the persisted count through db_count_cache (querying
count_records once per fingerprint), and skips when the occurrence number is
at most the persisted count. -/
def should_skip (cfg : SenderConfig) (has_history : Bool)
    (db_count : DanmakuFingerprint → Nat) (dm : Danmaku)
    (ctx : SendingContext) : Bool × SendingContext :=
  if !cfg.skip_sent || !has_history then (false, ctx)
  else
    let f := get_fingerprint dm
    let occurrence := ctx.local_counter f + 1
    let ctx1 := { ctx with
      local_counter := fun g => if g = f then occurrence else ctx.local_counter g }
    match ctx1.db_count_cache f with
    | some n => (decide (occurrence ≤ n), ctx1)
    | none =>
        let n := db_count f
        (decide (occurrence ≤ n),
         { ctx1 with
            db_count_cache := fun g =>
              if g = f then some n else ctx1.db_count_cache g })

/-- BiliDanmakuSender._check_auto_stop.  The elapsed-time comparison
(elapsed_minutes ≥ stop_after_time) reads the wall clock, so the environment
supplies its value as time_hit. -/
def check_auto_stop (cfg : SenderConfig) (time_hit : Bool)
    (ctx : SendingContext) : Bool × SendingContext :=
  if cfg.stop_after_count > 0 ∧
      (ctx.success_count : Int) ≥ cfg.stop_after_count then
    (true, { ctx with auto_stop_reason :=
      "达到数量限制 (" ++ toString cfg.stop_after_count ++ "条)" })
  else if cfg.stop_after_time > 0 ∧ time_hit then
    (true, { ctx with auto_stop_reason :=
      "达到时间限制 (" ++ toString cfg.stop_after_time ++ "分钟)" })
  else (false, ctx)

/-- Environment of one send run: the API client behaviour per item index,
the external cancellation observations (at each loop head and during each
pacing wait), the elapsed-time comparisons, and the history count per
fingerprint (count_records over the run's target; constant across the run,
which is exact because db_count_cache queries it once per fingerprint). -/
structure SendEnv where
  api : Nat → ApiOutcome
  ext_stop : Nat → Bool
  wait_stop : Nat → Bool
  time_hit : Nat → Bool
  db_count : DanmakuFingerprint → Nat

/-- State threaded through the send loop: the context, the value of the shared
stop event, and the indices submitted to the API client so far (the observable
trace of post_danmaku calls). -/
structure RunState where
  ctx : SendingContext
  stop_set : Bool
  submitted : List Nat

/-- The per-item loop of send_danmaku_from_list, recursing over the remaining
items: i is the absolute index of the head of rest in the full list (so
danmakus[i:] is dm :: rest and danmakus[i+1:] is rest).  The dmid write-back
into the item list is dropped — no later loop step reads it — and the
progress/result callbacks are external observers. -/
def send_loop (cfg : SenderConfig) (has_history : Bool) (env : SendEnv) :
    Nat → List Danmaku → RunState → Except PyExc RunState
  | _, [], st => .ok st
  | i, dm :: rest, st =>
    if st.stop_set || env.ext_stop i then
      .ok { st with
        stop_set := true,
        ctx := st.ctx.add_unsent_list (dm :: rest) "任务手动停止" }
    else
      match should_skip cfg has_history env.db_count dm st.ctx with
      | (true, ctx1) =>
          send_loop cfg has_history env (i + 1) rest
            { st with ctx := { ctx1 with skipped_count := ctx1.skipped_count + 1 } }
      | (false, ctx1) =>
          let ctx2 := { ctx1 with attempted_count := ctx1.attempted_count + 1 }
          match send_single_danmaku (env.api i) dm with
          | .error e => .error e
          | .ok (result, _dm) =>
              match handle_send_result dm result ctx2 with
              | (.STOP_FATAL, ctx3) =>
                  .ok { st with
                    ctx := ctx3.add_unsent_list rest "由于前序致命错误停止任务",
                    submitted := st.submitted ++ [i] }
              | (.CONTINUE, ctx3) =>
                  match check_auto_stop cfg (env.time_hit i) ctx3 with
                  | (true, ctx4) =>
                      .ok { st with
                        ctx := ctx4.add_unsent_list rest
                          ("自动停止: " ++
                            (if ctx4.auto_stop_reason ≠ "" then
                              ctx4.auto_stop_reason
                             else "达到自动停止条件")),
                        stop_set := true,
                        submitted := st.submitted ++ [i] }
                  | (false, ctx4) =>
                      if rest = [] then
                        .ok { st with
                          ctx := ctx4,
                          submitted := st.submitted ++ [i] }
                      else if st.stop_set || env.wait_stop i then
                        .ok { st with
                          ctx := ctx4.add_unsent_list rest "任务手动停止",
                          stop_set := true,
                          submitted := st.submitted ++ [i] }
                      else
                        send_loop cfg has_history env (i + 1) rest
                          { st with
                            ctx := ctx4,
                            submitted := st.submitted ++ [i] }

/-- BiliDanmakuSender.send_danmaku_from_list: builds a fresh context and runs
the per-item loop from index 0 (an empty batch goes straight to the summary).
has_history is whether a history_manager was passed. -/
def send_danmaku_from_list (cfg : SenderConfig) (has_history : Bool)
    (env : SendEnv) (danmakus : List Danmaku) : Except PyExc RunState :=
  send_loop cfg has_history env 0 danmakus
    { ctx := { total := danmakus.length }, stop_set := false, submitted := [] }

/-- C2: refuted by the code.  When the API client raises one of its typed
exceptions (here the timeout BiliApiException) while submitting the only item,
the except-handler inside _send_single_danmaku itself raises AttributeError
(it calls danmaku.get on the Danmaku dataclass, and would then construct
DanmakuSendResult with keyword arguments success and message that the
dataclass does not have), so send_danmaku_from_list propagates an exception
instead of converting it into a failure result and ending with a summary. -/
theorem send_propagates_api_exception :
    send_danmaku_from_list {} false
      { api := fun _ => .raised
          { code := -9997, message := "timeout", is_network_error := true },
        ext_stop := fun _ => false, wait_stop := fun _ => false,
        time_hit := fun _ => false, db_count := fun _ => 0 }
      [{ msg := "hello", progress := 0 }] =
    .error (.attributeError "Danmaku object has no attribute get") := by
  rfl

theorem send_single_danmaku_ok (r : DanmakuSendResult) (dm : Danmaku) :
    ∃ dm2, send_single_danmaku (.ok r) dm = .ok (r, dm2) := by
  by_cases hc : r.is_success = true ∧ r.dmid ≠ ""
  · exact ⟨{ dm with dmid := r.dmid }, by simp only [send_single_danmaku, if_pos hc]⟩
  · exact ⟨dm, by simp only [send_single_danmaku, if_neg hc]⟩

theorem should_skip_fields (cfg : SenderConfig) (hh : Bool)
    (dbc : DanmakuFingerprint → Nat) (dm : Danmaku) (ctx : SendingContext) :
    (should_skip cfg hh dbc dm ctx).2.total = ctx.total ∧
    (should_skip cfg hh dbc dm ctx).2.attempted_count = ctx.attempted_count ∧
    (should_skip cfg hh dbc dm ctx).2.success_count = ctx.success_count ∧
    (should_skip cfg hh dbc dm ctx).2.skipped_count = ctx.skipped_count ∧
    (should_skip cfg hh dbc dm ctx).2.auto_stop_reason = ctx.auto_stop_reason ∧
    (should_skip cfg hh dbc dm ctx).2.fatal_error_occurred =
      ctx.fatal_error_occurred ∧
    (should_skip cfg hh dbc dm ctx).2.unsent_records = ctx.unsent_records := by
  unfold should_skip
  split
  · exact ⟨rfl, rfl, rfl, rfl, rfl, rfl, rfl⟩
  · dsimp only
    split <;> exact ⟨rfl, rfl, rfl, rfl, rfl, rfl, rfl⟩

theorem handle_send_result_fatal (dm : Danmaku) (result : DanmakuSendResult)
    (ctx : SendingContext) (h : (process_send_result result).2 = true) :
    handle_send_result dm result ctx =
      (.STOP_FATAL, { ctx with
        fatal_error_occurred := true,
        unsent_records := ctx.unsent_records ++
          [⟨dm, "致命错误: " ++ result.display_message⟩] }) := by
  simp only [handle_send_result, SendingContext.add_unsent, h, if_true]

theorem handle_send_result_success (dm : Danmaku) (result : DanmakuSendResult)
    (ctx : SendingContext) (h2 : (process_send_result result).2 = false)
    (h1 : (process_send_result result).1 = true) :
    handle_send_result dm result ctx =
      (.CONTINUE, { ctx with success_count := ctx.success_count + 1 }) := by
  simp only [handle_send_result, SendingContext.add_unsent, h2, h1,
    Bool.false_eq_true, if_false, Bool.not_true]

theorem handle_send_result_retry (dm : Danmaku) (result : DanmakuSendResult)
    (ctx : SendingContext) (h2 : (process_send_result result).2 = false)
    (h1 : (process_send_result result).1 = false) :
    handle_send_result dm result ctx =
      (.CONTINUE, { ctx with
        unsent_records := ctx.unsent_records ++
          [⟨dm, result.display_message⟩] }) := by
  simp only [handle_send_result, SendingContext.add_unsent, h2, h1,
    Bool.false_eq_true, if_false, Bool.not_false, if_true]

theorem check_auto_stop_count_hit (cfg : SenderConfig) (tb : Bool)
    (ctx : SendingContext)
    (h : cfg.stop_after_count > 0 ∧
      (ctx.success_count : Int) ≥ cfg.stop_after_count) :
    check_auto_stop cfg tb ctx =
      (true, { ctx with auto_stop_reason :=
        "达到数量限制 (" ++ toString cfg.stop_after_count ++ "条)" }) := by
  unfold check_auto_stop
  rw [if_pos h]

theorem check_auto_stop_disabled (cfg : SenderConfig) (tb : Bool)
    (ctx : SendingContext) (h1 : cfg.stop_after_count = 0)
    (h2 : cfg.stop_after_time = 0) :
    check_auto_stop cfg tb ctx = (false, ctx) := by
  unfold check_auto_stop
  rw [if_neg (by rw [h1]; intro hc; exact absurd hc.1 (by decide)),
    if_neg (by rw [h2]; intro hc; exact absurd hc.1 (by decide))]

theorem check_auto_stop_cases (cfg : SenderConfig) (tb : Bool)
    (ctx : SendingContext) :
    check_auto_stop cfg tb ctx = (false, ctx) ∨
    ∃ r, check_auto_stop cfg tb ctx =
      (true, { ctx with auto_stop_reason := r }) := by
  unfold check_auto_stop
  split
  · exact Or.inr ⟨_, rfl⟩
  · split
    · exact Or.inr ⟨_, rfl⟩
    · exact Or.inl rfl

theorem send_loop_submitted_extends (cfg : SenderConfig) (hh : Bool)
    (env : SendEnv) :
    ∀ (rest : List Danmaku) (i : Nat) (st out : RunState),
      send_loop cfg hh env i rest st = .ok out →
      ∃ new, out.submitted = st.submitted ++ new ∧ ∀ j ∈ new, i ≤ j := by
  intro rest
  induction rest with
  | nil =>
      intro i st out h
      simp only [send_loop] at h
      cases h
      exact ⟨[], by simp, by simp⟩
  | cons dm rest ih =>
      intro i st out h
      simp only [send_loop] at h
      split at h
      · cases h
        exact ⟨[], by simp, by simp⟩
      · split at h
        · rename_i ctx1 hs
          obtain ⟨new, hnew, hge⟩ := ih (i + 1) _ _ h
          exact ⟨new, hnew, fun j hj => le_trans (Nat.le_succ i) (hge j hj)⟩
        · rename_i ctx1 hs
          split at h
          · cases h
          · split at h
            · cases h
              exact ⟨[i], rfl, by simp⟩
            · split at h
              · cases h
                exact ⟨[i], rfl, by simp⟩
              · split at h
                · cases h
                  exact ⟨[i], rfl, by simp⟩
                · split at h
                  · cases h
                    exact ⟨[i], rfl, by simp⟩
                  · obtain ⟨new, hnew, hge⟩ := ih (i + 1) _ _ h
                    simp only at hnew
                    refine ⟨i :: new, by simpa using hnew, ?_⟩
                    intro j hj
                    rcases List.mem_cons.mp hj with rfl | hj
                    · exact le_rfl
                    · exact le_trans (Nat.le_succ i) (hge j hj)

theorem send_loop_fatal_stop (cfg : SenderConfig) (hh : Bool) (env : SendEnv)
    (res : Nat → DanmakuSendResult) (henv : ∀ j, env.api j = .ok (res j))
    (k : Nat) (hfatal : (process_send_result (res k)).2 = true) :
    ∀ (rest : List Danmaku) (i : Nat) (st out : RunState),
      send_loop cfg hh env i rest st = .ok out →
      k ∉ st.submitted → k ∈ out.submitted →
      (∀ j ∈ out.submitted, j ∈ st.submitted ∨ j ≤ k) ∧
      ∃ (dmk : Danmaku) (restk : List Danmaku)
        (pre : List UnsentDanmakusRecord),
        rest.drop (k - i) = dmk :: restk ∧
        out.ctx.unsent_records = pre ++
          ⟨dmk, "致命错误: " ++ (res k).display_message⟩ ::
          restk.map (fun d => ⟨d, "由于前序致命错误停止任务"⟩) := by
  intro rest
  induction rest with
  | nil =>
      intro i st out h hk hk2
      simp only [send_loop] at h
      cases h
      exact absurd hk2 hk
  | cons dm rest ih =>
      intro i st out h hk hk2
      simp only [send_loop] at h
      split at h
      · cases h
        exact absurd hk2 hk
      · split at h
        · -- skipped: the loop continues with the same submitted list
          rename_i ctx1 hs
          obtain ⟨new, hnew, hge⟩ :=
            send_loop_submitted_extends cfg hh env rest (i + 1) _ _ h
          have hik : i + 1 ≤ k := by
            rcases List.mem_append.mp (hnew ▸ hk2) with hmem | hmem
            · exact absurd hmem hk
            · exact hge k hmem
          obtain ⟨h1, dmk, restk, pre, hdrop, huns⟩ := ih (i + 1) _ _ h hk hk2
          refine ⟨h1, dmk, restk, pre, ?_, huns⟩
          have hsub : k - i = (k - (i + 1)) + 1 := by omega
          rw [hsub, List.drop_succ_cons, hdrop]
        · rename_i ctx1 hs
          split at h
          · -- the api call raised: contradiction with henv
            rename_i e heq
            rw [henv i] at heq
            obtain ⟨dm2, hss⟩ := send_single_danmaku_ok (res i) dm
            rw [hss] at heq
            cases heq
          · rename_i result dm2 heq
            rw [henv i] at heq
            obtain ⟨dm2b, hss⟩ := send_single_danmaku_ok (res i) dm
            rw [hss] at heq
            have hres : result = res i := by
              have := Except.ok.inj heq
              exact (Prod.mk.injEq _ _ _ _).mp this |>.1.symm
            have hctx1uns : ctx1.unsent_records = st.ctx.unsent_records := by
              have := (should_skip_fields cfg hh env.db_count dm st.ctx).2.2.2.2.2.2
              rw [hs] at this
              exact this
            split at h
            · -- STOP_FATAL branch
              rename_i ctx3 heq2
              cases h
              have hki : k = i := by
                rcases List.mem_append.mp hk2 with hmem | hmem
                · exact absurd hmem hk
                · simpa using hmem
              subst hki
              rw [handle_send_result_fatal dm result _ (by rw [hres]; exact hfatal)]
                at heq2
              have hctx3 := ((Prod.mk.injEq _ _ _ _).mp heq2).2
              constructor
              · intro j hj
                rcases List.mem_append.mp hj with hmem | hmem
                · exact Or.inl hmem
                · exact Or.inr (le_of_eq (by simpa using hmem))
              · refine ⟨dm, rest, st.ctx.unsent_records, by simp, ?_⟩
                show ctx3.unsent_records ++ _ = _
                rw [← hctx3]
                simp [hctx1uns, hres]
            · -- CONTINUE branch
              rename_i ctx3 heq2
              have hknoti : k = i → False := by
                intro hki
                subst hki
                rw [handle_send_result_fatal dm result _
                  (by rw [hres]; exact hfatal)] at heq2
                simp at heq2
              split at h
              · -- auto-stop break
                rename_i ctx4 heq3
                cases h
                rcases List.mem_append.mp hk2 with hmem | hmem
                · exact absurd hmem hk
                · exact absurd (by simpa using hmem) hknoti
              · rename_i ctx4 heq3
                split at h
                · -- last item, no wait
                  cases h
                  rcases List.mem_append.mp hk2 with hmem | hmem
                  · exact absurd hmem hk
                  · exact absurd (by simpa using hmem) hknoti
                · split at h
                  · -- stop during the wait
                    cases h
                    rcases List.mem_append.mp hk2 with hmem | hmem
                    · exact absurd hmem hk
                    · exact absurd (by simpa using hmem) hknoti
                  · -- continue to the next item
                    have hknew : k ∉ st.submitted ++ [i] := by
                      intro hmem
                      rcases List.mem_append.mp hmem with hmem | hmem
                      · exact hk hmem
                      · exact hknoti (by simpa using hmem)
                    obtain ⟨new, hnew, hge⟩ :=
                      send_loop_submitted_extends cfg hh env rest (i + 1) _ _ h
                    have hik : i + 1 ≤ k := by
                      rcases List.mem_append.mp (hnew ▸ hk2) with hmem | hmem
                      · exact absurd hmem hknew
                      · exact hge k hmem
                    obtain ⟨h1, dmk, restk, pre, hdrop, huns⟩ :=
                      ih (i + 1) _ _ h hknew hk2
                    refine ⟨?_, dmk, restk, pre, ?_, huns⟩
                    · intro j hj
                      rcases h1 j hj with hmem | hmem
                      · rcases List.mem_append.mp hmem with hmem | hmem
                        · exact Or.inl hmem
                        · exact Or.inr (le_trans (le_of_eq (by simpa using hmem))
                            (by omega))
                      · exact Or.inr hmem
                    · have hsub : k - i = (k - (i + 1)) + 1 := by omega
                      rw [hsub, List.drop_succ_cons, hdrop]

/-- C3: fatal short-circuit.  If the item actually submitted at index k is
classified fatal (its code maps to an is_fatal entry, or is unknown and hence
treated as fatal), then no later index is ever submitted, and the unsent list
ends with item k carrying the fatal-error reason followed by every remaining
item carrying the stopped-because-of-the-fatal-error reason. -/
theorem fatal_short_circuit (cfg : SenderConfig) (hh : Bool) (env : SendEnv)
    (res : Nat → DanmakuSendResult) (henv : ∀ j, env.api j = .ok (res j))
    (dms : List Danmaku) (k : Nat) (out : RunState)
    (hrun : send_danmaku_from_list cfg hh env dms = .ok out)
    (hsub : k ∈ out.submitted)
    (hfatal : (process_send_result (res k)).2 = true) :
    (∀ j ∈ out.submitted, j ≤ k) ∧
    ∃ (dmk : Danmaku) (restk : List Danmaku)
      (pre : List UnsentDanmakusRecord),
      dms.drop k = dmk :: restk ∧
      out.ctx.unsent_records = pre ++
        ⟨dmk, "致命错误: " ++ (res k).display_message⟩ ::
        restk.map (fun d => ⟨d, "由于前序致命错误停止任务"⟩) := by
  obtain ⟨h1, dmk, restk, pre, hdrop, huns⟩ :=
    send_loop_fatal_stop cfg hh env res henv k hfatal dms 0 _ out hrun
      (by simp) hsub
  refine ⟨?_, dmk, restk, pre, by simpa using hdrop, huns⟩
  intro j hj
  rcases h1 j hj with hmem | hmem
  · simp at hmem
  · exact hmem

/-- Per-index API results for the C3 witness run: index 1 fails with the fatal
UNAUTHORIZED code, other indices succeed. -/
def resC3 : Nat → DanmakuSendResult := fun j =>
  if j = 1 then
    { code := -101, is_success := false, raw_message := "err",
      display_message := BiliDmErrorCode.UNAUTHORIZED.description }
  else
    { code := 0, is_success := true, raw_message := "ok",
      display_message := BiliDmErrorCode.SUCCESS.description,
      dmid := "id" }

/-- Environment for the C3 witness run: no cancellations, no time limit. -/
def envC3 : SendEnv :=
  { api := fun j => .ok (resC3 j), ext_stop := fun _ => false,
    wait_stop := fun _ => false, time_hit := fun _ => false,
    db_count := fun _ => 0 }

/-- The three-item batch of the C3 witness run. -/
def dmsC3 : List Danmaku :=
  [{ msg := "a", progress := 1 }, { msg := "b", progress := 2 },
   { msg := "c", progress := 3 }]

/-- The C3 witness run's final state. -/
def outC3 : RunState :=
  match send_danmaku_from_list {} false envC3 dmsC3 with
  | .ok st => st
  | .error _ => { ctx := { total := 0 }, stop_set := false, submitted := [] }

theorem fatal_short_circuit_witness :
    (1 ∈ outC3.submitted) ∧ (process_send_result (resC3 1)).2 = true ∧
    (∀ j ∈ outC3.submitted, j ≤ 1) ∧
    ∃ (dmk : Danmaku) (restk : List Danmaku)
      (pre : List UnsentDanmakusRecord),
      dmsC3.drop 1 = dmk :: restk ∧
      outC3.ctx.unsent_records = pre ++
        ⟨dmk, "致命错误: " ++ (resC3 1).display_message⟩ ::
        restk.map (fun d => ⟨d, "由于前序致命错误停止任务"⟩) := by
  have h := fatal_short_circuit {} false envC3 resC3 (fun j => rfl) dmsC3 1
    outC3 rfl (by decide) (by decide)
  exact ⟨by decide, by decide, h.1, h.2⟩

theorem handle_send_result_inv (dm : Danmaku) (result : DanmakuSendResult)
    (ctx : SendingContext) :
    ((handle_send_result dm result ctx).2.success_count = ctx.success_count ∨
     (handle_send_result dm result ctx).2.success_count =
       ctx.success_count + 1) ∧
    (handle_send_result dm result ctx).2.auto_stop_reason =
      ctx.auto_stop_reason ∧
    (handle_send_result dm result ctx).2.total = ctx.total := by
  unfold handle_send_result SendingContext.add_unsent
  dsimp only
  split
  · exact ⟨Or.inl rfl, rfl, rfl⟩
  · split
    · exact ⟨Or.inl rfl, rfl, rfl⟩
    · exact ⟨Or.inr rfl, rfl, rfl⟩

theorem count_reason_ne_empty (c : Int) :
    "达到数量限制 (" ++ toString c ++ "条)" ≠ "" := by
  intro h
  have h2 := congrArg String.length h
  rw [String.length_append, String.length_append] at h2
  have h3 : "达到数量限制 (".length = 8 := rfl
  have h4 : String.length "" = 0 := rfl
  omega

theorem drop_cons_succ {α : Type _} (l : List α) (i : Nat) (a : α)
    (t : List α) (h : l.drop i = a :: t) : l.drop (i + 1) = t := by
  have h2 : l.drop (i + 1) = (l.drop i).drop 1 := by
    rw [List.drop_drop, Nat.add_comm]
  rw [h2, h]
  rfl

theorem handle_send_result_stop_fatal_inv (dm : Danmaku)
    (result : DanmakuSendResult) (ctx ctx3 : SendingContext)
    (h : handle_send_result dm result ctx = (.STOP_FATAL, ctx3)) :
    ctx3.success_count = ctx.success_count := by
  unfold handle_send_result SendingContext.add_unsent at h
  dsimp only at h
  split at h
  · cases h
    rfl
  · split at h
    · simp at h
    · simp at h

theorem handle_send_result_continue_inv (dm : Danmaku)
    (result : DanmakuSendResult) (ctx ctx3 : SendingContext)
    (h : handle_send_result dm result ctx = (.CONTINUE, ctx3)) :
    (ctx3.success_count = ctx.success_count ∨
     (ctx3.success_count = ctx.success_count + 1 ∧
      (process_send_result result).1 = true)) ∧
    ctx3.auto_stop_reason = ctx.auto_stop_reason := by
  unfold handle_send_result SendingContext.add_unsent at h
  dsimp only at h
  split at h
  · simp at h
  · split at h
    · cases h
      exact ⟨Or.inl rfl, rfl⟩
    · cases h
      rename_i h1
      refine ⟨Or.inr ⟨rfl, ?_⟩, rfl⟩
      revert h1
      cases (process_send_result result).1 <;> simp

theorem send_loop_auto_stop_count (cfg : SenderConfig) (hh : Bool)
    (env : SendEnv) (res : Nat → DanmakuSendResult)
    (henv : ∀ j, env.api j = .ok (res j)) (hc : cfg.stop_after_count > 0)
    (dms : List Danmaku) :
    ∀ (rest : List Danmaku) (i : Nat) (st out : RunState),
      rest = dms.drop i →
      (st.ctx.success_count : Int) < cfg.stop_after_count →
      send_loop cfg hh env i rest st = .ok out →
      ((out.ctx.success_count : Int) ≤ cfg.stop_after_count) ∧
      ((out.ctx.success_count : Int) = cfg.stop_after_count →
        out.stop_set = true ∧
        out.ctx.auto_stop_reason =
          "达到数量限制 (" ++ toString cfg.stop_after_count ++ "条)" ∧
        ∃ (ik : Nat) (pre : List UnsentDanmakusRecord), i ≤ ik ∧
          ik ∈ out.submitted ∧ ik < dms.length ∧
          (process_send_result (res ik)).1 = true ∧
          (∀ j ∈ out.submitted, j ∈ st.submitted ∨ j ≤ ik) ∧
          out.ctx.unsent_records = pre ++ (dms.drop (ik + 1)).map
            (fun d => ⟨d, "自动停止: " ++ out.ctx.auto_stop_reason⟩)) := by
  intro rest
  induction rest with
  | nil =>
      intro i st out hrest hlt h
      simp only [send_loop] at h
      cases h
      exact ⟨le_of_lt hlt, fun he => absurd he (ne_of_lt hlt)⟩
  | cons dm rest ih =>
      intro i st out hrest hlt h
      have hrest2 : rest = dms.drop (i + 1) :=
        (drop_cons_succ dms i dm rest hrest.symm).symm
      have hilen : i < dms.length := by
        by_contra hle
        have h2 := hrest
        rw [List.drop_eq_nil_of_le (Nat.le_of_not_lt hle)] at h2
        exact (List.cons_ne_nil dm rest) h2
      simp only [send_loop] at h
      split at h
      · cases h
        exact ⟨le_of_lt hlt, fun he => absurd he (ne_of_lt hlt)⟩
      · split at h
        · -- skipped item: success counter untouched
          rename_i ctx1 hs
          have hsf := should_skip_fields cfg hh env.db_count dm st.ctx
          rw [hs] at hsf
          have hlt' : (ctx1.success_count : Int) < cfg.stop_after_count := by
            rw [hsf.2.2.1]
            exact hlt
          obtain ⟨hA, hB⟩ := ih (i + 1) _ _ hrest2 hlt' h
          refine ⟨hA, fun he => ?_⟩
          obtain ⟨hstop, hreason, ik, pre, hik, hmem, hlen, hflag, hsubm,
            huns⟩ := hB he
          exact ⟨hstop, hreason, ik, pre, by omega, hmem, hlen, hflag, hsubm,
            huns⟩
        · rename_i ctx1 hs
          have hsf := should_skip_fields cfg hh env.db_count dm st.ctx
          rw [hs] at hsf
          split at h
          · rename_i e heq
            rw [henv i] at heq
            obtain ⟨dm2, hss⟩ := send_single_danmaku_ok (res i) dm
            rw [hss] at heq
            cases heq
          · rename_i result dm2 heq
            rw [henv i] at heq
            obtain ⟨dm2b, hss⟩ := send_single_danmaku_ok (res i) dm
            rw [hss] at heq
            have hres : result = res i :=
              ((Prod.mk.injEq _ _ _ _).mp (Except.ok.inj heq)).1.symm
            split at h
            · -- fatal break: success counter untouched, below the cap
              rename_i ctx3 heq2
              have hs3 := handle_send_result_stop_fatal_inv dm result _ ctx3 heq2
              cases h
              have hlt3 : (ctx3.success_count : Int) < cfg.stop_after_count := by
                rw [hs3]
                show ((ctx1.success_count : Int)) < _
                rw [hsf.2.2.1]
                exact hlt
              exact ⟨le_of_lt hlt3, fun he => absurd he (ne_of_lt hlt3)⟩
            · rename_i ctx3 heq2
              have hs3 := handle_send_result_continue_inv dm result _ ctx3 heq2
              have hc1 : ctx1.success_count = st.ctx.success_count := hsf.2.2.1
              have hsor : ctx3.success_count = st.ctx.success_count ∨
                  (ctx3.success_count = st.ctx.success_count + 1 ∧
                   (process_send_result result).1 = true) := by
                rcases hs3.1 with hss | ⟨hss, hflag⟩
                · exact Or.inl (by rw [hss]; exact hc1)
                · refine Or.inr ⟨?_, hflag⟩
                  rw [hss, show ({ ctx1 with
                    attempted_count := ctx1.attempted_count + 1 } :
                    SendingContext).success_count = ctx1.success_count from rfl,
                    hc1]
              split at h
              · -- auto-stop fired
                rename_i ctx4 heq3
                by_cases hcc : cfg.stop_after_count > 0 ∧
                    (ctx3.success_count : Int) ≥ cfg.stop_after_count
                · -- the count limit fired: success hit the cap exactly
                  rw [check_auto_stop_count_hit cfg (env.time_hit i) ctx3 hcc]
                    at heq3
                  have hctx4 : ({ ctx3 with auto_stop_reason :=
                      "达到数量限制 (" ++ toString cfg.stop_after_count ++ "条)" } :
                      SendingContext) = ctx4 :=
                    ((Prod.mk.injEq _ _ _ _).mp heq3).2
                  have hreason4 : ctx4.auto_stop_reason =
                      "达到数量限制 (" ++ toString cfg.stop_after_count ++ "条)" := by
                    rw [← hctx4]
                  have hsucc4 : ctx4.success_count = ctx3.success_count := by
                    rw [← hctx4]
                  have hceq : (ctx3.success_count : Int) =
                      cfg.stop_after_count := by
                    rcases hsor with hss | ⟨hss, _⟩ <;> omega
                  have hflag : (process_send_result (res i)).1 = true := by
                    rcases hsor with hss | ⟨hss, hflag⟩
                    · exact absurd hcc.2 (by omega)
                    · rw [← hres]
                      exact hflag
                  cases h
                  refine ⟨?_, fun _ => ?_⟩
                  · show ((ctx4.success_count : Int)) ≤ _
                    rw [hsucc4, hceq]
                  · refine ⟨rfl, ?_, i, ctx4.unsent_records, le_rfl,
                      List.mem_append_right _ (List.mem_singleton_self i),
                      hilen, hflag, ?_, ?_⟩
                    · show ctx4.auto_stop_reason = _
                      exact hreason4
                    · intro j hj
                      rcases List.mem_append.mp hj with hmem | hmem
                      · exact Or.inl hmem
                      · exact Or.inr (le_of_eq (by simpa using hmem))
                    · show (ctx4.add_unsent_list rest _).unsent_records = _
                      simp only [SendingContext.add_unsent_list]
                      rw [← hrest2]
                      simp only [hreason4]
                      rw [if_pos (count_reason_ne_empty cfg.stop_after_count)]
                · -- only the time limit can have fired: success is below the cap
                  unfold check_auto_stop at heq3
                  rw [if_neg hcc] at heq3
                  split at heq3
                  · have hctx4 := ((Prod.mk.injEq _ _ _ _).mp heq3).2
                    have hsucc4 : ctx4.success_count = ctx3.success_count := by
                      rw [← hctx4]
                    have hnotge : ¬((ctx3.success_count : Int) ≥
                        cfg.stop_after_count) := fun hb => hcc ⟨hc, hb⟩
                    have hlt3 := lt_of_not_ge hnotge
                    cases h
                    have hlt4 : ((ctx4.success_count : Int)) <
                        cfg.stop_after_count := by
                      rw [hsucc4]
                      exact hlt3
                    exact ⟨le_of_lt hlt4, fun he => absurd he (ne_of_lt hlt4)⟩
                  · simp at heq3
              · -- no auto-stop: the run continues
                rename_i ctx4 heq3
                unfold check_auto_stop at heq3
                by_cases hcc : cfg.stop_after_count > 0 ∧
                    (ctx3.success_count : Int) ≥ cfg.stop_after_count
                · rw [if_pos hcc] at heq3
                  simp at heq3
                · rw [if_neg hcc] at heq3
                  split at heq3
                  · simp at heq3
                  · have h43 : ctx3 = ctx4 :=
                      ((Prod.mk.injEq _ _ _ _).mp heq3).2
                    subst h43
                    have hnotge : ¬((ctx3.success_count : Int) ≥
                        cfg.stop_after_count) := fun hb => hcc ⟨hc, hb⟩
                    have hlt3 := lt_of_not_ge hnotge
                    split at h
                    · cases h
                      exact ⟨le_of_lt hlt3, fun he => absurd he (ne_of_lt hlt3)⟩
                    · split at h
                      · cases h
                        exact ⟨le_of_lt hlt3, fun he => absurd he (ne_of_lt hlt3)⟩
                      · obtain ⟨hA, hB⟩ := ih (i + 1) _ _ hrest2 hlt3 h
                        refine ⟨hA, fun he => ?_⟩
                        obtain ⟨hstop, hreason, ik, pre, hik, hikmem, hiklen,
                          hflag, hsubm, huns⟩ := hB he
                        refine ⟨hstop, hreason, ik, pre, by omega, hikmem,
                          hiklen, hflag, ?_, huns⟩
                        intro j hj
                        rcases hsubm j hj with hmem | hmem
                        · rcases List.mem_append.mp hmem with hmem | hmem
                          · exact Or.inl hmem
                          · exact Or.inr (le_trans
                              (le_of_eq (by simpa using hmem)) (by omega))
                        · exact Or.inr hmem

/-- C7: auto-stop by count.  With stopAfterCount = c > 0, the success counter
never passes c, and whenever the run ends with the counter at c the stop event
is observably set, the stop reason is the count-limit reason, and the run
stopped at the submission that reached the cap: there is an index ik that was
itself submitted, lies inside the batch and whose result was classified a
success, such that no index after ik was ever submitted and the unsent list
ends with every item after ik carrying the auto-stop reason. -/
theorem auto_stop_by_count (cfg : SenderConfig) (hh : Bool) (env : SendEnv)
    (res : Nat → DanmakuSendResult) (henv : ∀ j, env.api j = .ok (res j))
    (hc : cfg.stop_after_count > 0) (dms : List Danmaku) (out : RunState)
    (hrun : send_danmaku_from_list cfg hh env dms = .ok out) :
    ((out.ctx.success_count : Int) ≤ cfg.stop_after_count) ∧
    ((out.ctx.success_count : Int) = cfg.stop_after_count →
      out.stop_set = true ∧
      out.ctx.auto_stop_reason =
        "达到数量限制 (" ++ toString cfg.stop_after_count ++ "条)" ∧
      ∃ (ik : Nat) (pre : List UnsentDanmakusRecord),
        ik ∈ out.submitted ∧ ik < dms.length ∧
        (process_send_result (res ik)).1 = true ∧
        (∀ j ∈ out.submitted, j ≤ ik) ∧
        out.ctx.unsent_records = pre ++ (dms.drop (ik + 1)).map
          (fun d => ⟨d, "自动停止: " ++ out.ctx.auto_stop_reason⟩)) := by
  obtain ⟨hA, hB⟩ := send_loop_auto_stop_count cfg hh env res henv hc dms dms
    0 _ out rfl (by simpa using hc) hrun
  refine ⟨hA, fun he => ?_⟩
  obtain ⟨hstop, hreason, ik, pre, _, hikmem, hiklen, hflag, hsubm, huns⟩ :=
    hB he
  refine ⟨hstop, hreason, ik, pre, hikmem, hiklen, hflag, ?_, huns⟩
  intro j hj
  rcases hsubm j hj with hmem | hmem
  · simp at hmem
  · exact hmem

/-- Results for the C7 witness run: every submission succeeds. -/
def resC7 : Nat → DanmakuSendResult := fun j =>
  { code := 0, is_success := true, raw_message := "ok",
    display_message := BiliDmErrorCode.SUCCESS.description,
    dmid := toString j }

/-- Environment for the C7 witness run. -/
def envC7 : SendEnv :=
  { api := fun j => .ok (resC7 j), ext_stop := fun _ => false,
    wait_stop := fun _ => false, time_hit := fun _ => false,
    db_count := fun _ => 0 }

/-- stopAfterCount = 2 for the C7 witness run. -/
def cfgC7 : SenderConfig := { stop_after_count := 2 }

/-- Four items; the run should stop right after the second one. -/
def dmsC7 : List Danmaku :=
  [{ msg := "a", progress := 1 }, { msg := "b", progress := 2 },
   { msg := "c", progress := 3 }, { msg := "d", progress := 4 }]

/-- The C7 witness run's final state. -/
def outC7 : RunState :=
  match send_danmaku_from_list cfgC7 false envC7 dmsC7 with
  | .ok st => st
  | .error _ => { ctx := { total := 0 }, stop_set := false, submitted := [] }

theorem auto_stop_by_count_witness :
    cfgC7.stop_after_count > 0 ∧
    (outC7.ctx.success_count : Int) ≤ cfgC7.stop_after_count ∧
    (outC7.ctx.success_count : Int) = cfgC7.stop_after_count ∧
    outC7.stop_set = true ∧
    outC7.ctx.auto_stop_reason =
      "达到数量限制 (" ++ toString cfgC7.stop_after_count ++ "条)" ∧
    outC7.submitted = [0, 1] ∧
    outC7.ctx.unsent_records =
      [⟨{ msg := "c", progress := 3 }, "自动停止: 达到数量限制 (2条)"⟩,
       ⟨{ msg := "d", progress := 4 }, "自动停止: 达到数量限制 (2条)"⟩] ∧
    ∃ (ik : Nat) (pre : List UnsentDanmakusRecord),
      ik ∈ outC7.submitted ∧ ik < dmsC7.length ∧
      (process_send_result (resC7 ik)).1 = true ∧
      (∀ j ∈ outC7.submitted, j ≤ ik) ∧
      outC7.ctx.unsent_records = pre ++ (dmsC7.drop (ik + 1)).map
        (fun d => ⟨d, "自动停止: " ++ outC7.ctx.auto_stop_reason⟩) := by
  have h := auto_stop_by_count cfgC7 false envC7 resC7 (fun j => rfl)
    (by decide) dmsC7 outC7 rfl
  have he : (outC7.ctx.success_count : Int) = cfgC7.stop_after_count := by
    decide
  obtain ⟨hstop, hreason, hrest⟩ := h.2 he
  exact ⟨by decide, h.1, he, hstop, hreason, by decide, by decide, hrest⟩

theorem get?_of_drop_cons {α : Type _} {l : List α} {i : Nat} {a : α}
    {t : List α} (h : l.drop i = a :: t) : l.get? i = some a := by
  have h2 := List.get?_drop l i 0
  rw [h] at h2
  simpa using h2.symm

theorem should_skip_spec (cfg : SenderConfig)
    (dbc : DanmakuFingerprint → Nat) (dm : Danmaku) (ctx : SendingContext)
    (hskip : cfg.skip_sent = true)
    (hcache : ∀ f, ctx.db_count_cache f = none ∨
      ctx.db_count_cache f = some (dbc f)) :
    (should_skip cfg true dbc dm ctx).1 =
      decide (ctx.local_counter (get_fingerprint dm) + 1 ≤
        dbc (get_fingerprint dm)) ∧
    (should_skip cfg true dbc dm ctx).2.local_counter = (fun g =>
      if g = get_fingerprint dm then
        ctx.local_counter (get_fingerprint dm) + 1
      else ctx.local_counter g) ∧
    (∀ f, (should_skip cfg true dbc dm ctx).2.db_count_cache f = none ∨
      (should_skip cfg true dbc dm ctx).2.db_count_cache f =
        some (dbc f)) := by
  unfold should_skip
  rw [hskip]
  rw [if_neg (by decide)]
  dsimp only
  rcases hcache (get_fingerprint dm) with hc | hc
  · rw [hc]
    dsimp only
    refine ⟨rfl, rfl, ?_⟩
    intro f
    by_cases hf : f = get_fingerprint dm
    · rw [if_pos hf, hf]
      exact Or.inr rfl
    · rw [if_neg hf]
      exact hcache f
  · rw [hc]
    dsimp only
    exact ⟨rfl, rfl, hcache⟩

theorem handle_send_result_counters (dm : Danmaku)
    (result : DanmakuSendResult) (ctx : SendingContext) :
    (handle_send_result dm result ctx).2.local_counter = ctx.local_counter ∧
    (handle_send_result dm result ctx).2.db_count_cache =
      ctx.db_count_cache ∧
    (handle_send_result dm result ctx).2.attempted_count =
      ctx.attempted_count ∧
    (handle_send_result dm result ctx).2.skipped_count =
      ctx.skipped_count := by
  unfold handle_send_result SendingContext.add_unsent
  dsimp only
  split
  · exact ⟨rfl, rfl, rfl, rfl⟩
  · split <;> exact ⟨rfl, rfl, rfl, rfl⟩

theorem handle_send_result_not_fatal (dm : Danmaku)
    (result : DanmakuSendResult) (ctx ctx3 : SendingContext)
    (hpr : (process_send_result result).2 = false)
    (h : handle_send_result dm result ctx = (.STOP_FATAL, ctx3)) : False := by
  unfold handle_send_result SendingContext.add_unsent at h
  dsimp only at h
  rw [hpr] at h
  rw [if_neg (by decide)] at h
  split at h <;> simp at h

theorem send_loop_skip_characterization (cfg : SenderConfig) (env : SendEnv)
    (res : Nat → DanmakuSendResult) (henv : ∀ j, env.api j = .ok (res j))
    (hskip : cfg.skip_sent = true) (hext : ∀ j, env.ext_stop j = false)
    (hwait : ∀ j, env.wait_stop j = false)
    (hnf : ∀ j, (process_send_result (res j)).2 = false)
    (hcnt : cfg.stop_after_count = 0) (htime : cfg.stop_after_time = 0)
    (dms : List Danmaku) :
    ∀ (rest : List Danmaku) (i : Nat) (st out : RunState),
      rest = dms.drop i → st.stop_set = false →
      (∀ j ∈ st.submitted, j < i) →
      (∀ f, st.ctx.local_counter f =
        (dms.take i).countP (fun d2 => decide (get_fingerprint d2 = f))) →
      (∀ f, st.ctx.db_count_cache f = none ∨
        st.ctx.db_count_cache f = some (env.db_count f)) →
      send_loop cfg true env i rest st = .ok out →
      ∃ new, out.submitted = st.submitted ++ new ∧ (∀ j ∈ new, i ≤ j) ∧
        (∀ f, new.countP (fun j =>
            decide ((dms.get? j).map get_fingerprint = some f)) =
          rest.countP (fun d2 => decide (get_fingerprint d2 = f)) -
            (env.db_count f - st.ctx.local_counter f)) ∧
        out.ctx.attempted_count = st.ctx.attempted_count + new.length ∧
        out.ctx.skipped_count + new.length =
          st.ctx.skipped_count + rest.length ∧
        (∀ j dmj, i ≤ j → dms.get? j = some dmj →
          (j ∈ out.submitted ↔ env.db_count (get_fingerprint dmj) <
            (dms.take (j + 1)).countP (fun d2 =>
              decide (get_fingerprint d2 = get_fingerprint dmj)))) := by
  intro rest
  induction rest with
  | nil =>
      intro i st out hrest hstop hsub hlc hcache h
      simp only [send_loop] at h
      cases h
      refine ⟨[], by simp, by simp, fun f => by simp, by simp, by simp, ?_⟩
      intro j dmj hij hget
      exfalso
      have hlen : dms.length ≤ i := by
        have h2 := hrest.symm
        rwa [List.drop_eq_nil_iff_le] at h2
      rw [List.get?_eq_none.mpr (by omega)] at hget
      cases hget
  | cons dm rest ih =>
      intro i st out hrest hstop hsub hlc hcache h
      have hget : dms.get? i = some dm := get?_of_drop_cons hrest.symm
      have hrest2 : rest = dms.drop (i + 1) :=
        (drop_cons_succ dms i dm rest hrest.symm).symm
      have hgetElem : dms[i]? = some dm := by
        rw [← List.get?_eq_getElem?]
        exact hget
      have htake : ∀ p : Danmaku → Bool,
          (dms.take (i + 1)).countP p =
            (dms.take i).countP p + (if p dm then 1 else 0) := by
        intro p
        rw [List.take_succ, hgetElem, List.countP_append]
        simp [List.countP_cons]
      have hspec := should_skip_spec cfg env.db_count dm st.ctx hskip hcache
      have hsf := should_skip_fields cfg true env.db_count dm st.ctx
      have hlcbump : ∀ f,
          (should_skip cfg true env.db_count dm st.ctx).2.local_counter f =
          (dms.take (i + 1)).countP
            (fun d2 => decide (get_fingerprint d2 = f)) := by
        intro f
        rw [hspec.2.1]
        dsimp only
        by_cases hf : f = get_fingerprint dm
        · subst hf
          rw [if_pos rfl, htake, hlc]
          simp
        · rw [if_neg hf, htake, hlc]
          have hd : (decide (get_fingerprint dm = f)) = false :=
            decide_eq_false (fun he => hf he.symm)
          rw [hd]
          simp
      simp only [send_loop] at h
      rw [hstop, hext i] at h
      rw [if_neg (by decide)] at h
      split at h
      · -- the head item is skipped
        rename_i ctx1 hs
        rw [hs] at hspec hsf hlcbump
        dsimp only at hspec hsf hlcbump
        have hskl : st.ctx.local_counter (get_fingerprint dm) + 1 ≤
            env.db_count (get_fingerprint dm) :=
          of_decide_eq_true hspec.1.symm
        have hsub' : ∀ j ∈ st.submitted, j < i + 1 :=
          fun j hj => Nat.lt_succ_of_lt (hsub j hj)
        obtain ⟨new, hnew, hge, hcm, hatt, hskp, hiff⟩ :=
          ih (i + 1)
            { st with
              ctx := { ctx1 with skipped_count := ctx1.skipped_count + 1 },
              stop_set := false }
            out hrest2 rfl hsub' hlcbump hspec.2.2 h
        dsimp only at hnew hatt hskp
        refine ⟨new, hnew, fun j hj => le_trans (Nat.le_succ i) (hge j hj),
          ?_, ?_, ?_, ?_⟩
        · intro f
          by_cases hf : f = get_fingerprint dm
          · subst hf
            have e1 : ctx1.local_counter (get_fingerprint dm) =
                st.ctx.local_counter (get_fingerprint dm) + 1 := by
              rw [hspec.2.1]
              dsimp only
              rw [if_pos rfl]
            have hdt : (decide (get_fingerprint dm = get_fingerprint dm) :
                Bool) = true := by simp
            rw [hcm (get_fingerprint dm), List.countP_cons, e1, hdt,
              if_pos rfl]
            omega
          · have e1 : ctx1.local_counter f = st.ctx.local_counter f := by
              rw [hspec.2.1]
              dsimp only
              rw [if_neg hf]
            have hd : (decide (get_fingerprint dm = f)) = false :=
              decide_eq_false (fun he => hf he.symm)
            rw [hcm f, List.countP_cons, e1, hd]
            simp
        · rw [hatt, hsf.2.1]
        · rw [hskp, hsf.2.2.2.1]
          simp only [List.length_cons]
          omega
        · intro j dmj hij hget2
          by_cases hji : j = i
          · subst hji
            rw [hget] at hget2
            have hdmj : dm = dmj := Option.some.inj hget2
            subst hdmj
            constructor
            · intro hmem
              exfalso
              rw [hnew] at hmem
              rcases List.mem_append.mp hmem with hmem | hmem
              · exact absurd (hsub _ hmem) (lt_irrefl j)
              · exact absurd (hge _ hmem) (by omega)
            · intro hlt
              exfalso
              rw [htake, ← hlc] at hlt
              simp at hlt
              omega
          · exact hiff j dmj (by omega) hget2
      · -- the head item is submitted
        rename_i ctx1 hs
        rw [hs] at hspec hsf hlcbump
        dsimp only at hspec hsf hlcbump
        have hnskl : ¬(st.ctx.local_counter (get_fingerprint dm) + 1 ≤
            env.db_count (get_fingerprint dm)) := by
          intro hle
          have h2 := hspec.1
          rw [decide_eq_true hle] at h2
          cases h2
        have hd0le : env.db_count (get_fingerprint dm) ≤
            st.ctx.local_counter (get_fingerprint dm) := by omega
        split at h
        · rename_i e heq
          rw [henv i] at heq
          obtain ⟨dm2, hss⟩ := send_single_danmaku_ok (res i) dm
          rw [hss] at heq
          cases heq
        · rename_i result dm2 heq
          rw [henv i] at heq
          obtain ⟨dm2b, hss⟩ := send_single_danmaku_ok (res i) dm
          rw [hss] at heq
          have hres : result = res i :=
            ((Prod.mk.injEq _ _ _ _).mp (Except.ok.inj heq)).1.symm
          split at h
          · rename_i ctx3 heq2
            exact absurd heq2 (fun hx =>
              handle_send_result_not_fatal dm result _ ctx3
                (by rw [hres]; exact hnf i) hx)
          · rename_i ctx3 heq2
            have hcnt3 := handle_send_result_counters dm result
              { ctx1 with attempted_count := ctx1.attempted_count + 1 }
            rw [heq2] at hcnt3
            dsimp only at hcnt3
            have hlc3 : ∀ f, ctx3.local_counter f =
                (dms.take (i + 1)).countP
                  (fun d2 => decide (get_fingerprint d2 = f)) := by
              intro f
              rw [hcnt3.1]
              exact hlcbump f
            have hcache3 : ∀ f, ctx3.db_count_cache f = none ∨
                ctx3.db_count_cache f = some (env.db_count f) := by
              intro f
              rw [hcnt3.2.1]
              exact hspec.2.2 f
            have hatt3 : ctx3.attempted_count =
                st.ctx.attempted_count + 1 := by
              rw [hcnt3.2.2.1, hsf.2.1]
            have hskp3 : ctx3.skipped_count = st.ctx.skipped_count := by
              rw [hcnt3.2.2.2, hsf.2.2.2.1]
            have hlc3dm : ctx3.local_counter (get_fingerprint dm) =
                st.ctx.local_counter (get_fingerprint dm) + 1 := by
              rw [hcnt3.1, hspec.2.1]
              dsimp only
              rw [if_pos rfl]
            split at h
            · rename_i ctx4 heq3
              rw [check_auto_stop_disabled cfg _ ctx3 hcnt htime] at heq3
              simp at heq3
            · rename_i ctx4 heq3
              rw [check_auto_stop_disabled cfg _ ctx3 hcnt htime] at heq3
              have h43 : ctx3 = ctx4 := ((Prod.mk.injEq _ _ _ _).mp heq3).2
              subst h43
              split at h
              · -- last item of the batch
                rename_i hrnil
                cases h
                subst hrnil
                refine ⟨[i], rfl, by simp, ?_, ?_, ?_, ?_⟩
                · intro f
                  simp only [List.countP_cons, List.countP_nil]
                  by_cases hf : f = get_fingerprint dm
                  · subst hf
                    have hp1 : (decide ((dms.get? i).map get_fingerprint =
                        some (get_fingerprint dm))) = true := by
                      rw [hget]
                      simp
                    have hp2 : (decide (get_fingerprint dm =
                        get_fingerprint dm)) = true := by simp
                    rw [hp1, hp2]
                    simp only [if_pos rfl]
                    omega
                  · have hp1 : (decide ((dms.get? i).map get_fingerprint =
                        some f)) = false := by
                      rw [hget]
                      simp only [Option.map_some', decide_eq_false_iff_not]
                      intro he
                      exact hf (Option.some.inj he).symm
                    have hp2 : (decide (get_fingerprint dm = f)) = false :=
                      decide_eq_false (fun he => hf he.symm)
                    rw [hp1, hp2]
                    simp
                · show ctx3.attempted_count = st.ctx.attempted_count + _
                  rw [hatt3]
                  simp
                · show ctx3.skipped_count + _ = st.ctx.skipped_count + _
                  rw [hskp3]
                  simp
                · intro j dmj hij hget2
                  by_cases hji : j = i
                  · subst hji
                    rw [hget] at hget2
                    have hdmj : dm = dmj := Option.some.inj hget2
                    subst hdmj
                    refine iff_of_true (List.mem_append_right _ ?_) ?_
                    · simp
                    · rw [htake, ← hlc]
                      simp
                      omega
                  · exfalso
                    have hlen : dms.length ≤ i + 1 := by
                      have h2 := hrest2.symm
                      rwa [List.drop_eq_nil_iff_le] at h2
                    rw [List.get?_eq_none.mpr (by omega)] at hget2
                    cases hget2
              · -- pacing wait passes, recurse
                rw [hwait i] at h
                rw [if_neg (by decide)] at h
                have hsub'' : ∀ j ∈ st.submitted ++ [i], j < i + 1 := by
                  intro j hj
                  rcases List.mem_append.mp hj with hj | hj
                  · exact Nat.lt_succ_of_lt (hsub j hj)
                  · simp at hj
                    omega
                obtain ⟨new, hnew, hge, hcm, hatt, hskp, hiff⟩ :=
                  ih (i + 1)
                    { st with
                      ctx := ctx3,
                      stop_set := false,
                      submitted := st.submitted ++ [i] }
                    out hrest2 rfl hsub'' hlc3 hcache3 h
                try dsimp only at hnew hatt hskp
                refine ⟨i :: new, ?_, ?_, ?_, ?_, ?_, ?_⟩
                · rw [hnew, List.append_assoc]
                  rfl
                · intro j hj
                  rcases List.mem_cons.mp hj with rfl | hj
                  · exact le_rfl
                  · exact le_trans (Nat.le_succ i) (hge j hj)
                · intro f
                  rw [List.countP_cons, List.countP_cons, hcm f]
                  by_cases hf : f = get_fingerprint dm
                  · subst hf
                    have hp1 : (decide ((dms.get? i).map get_fingerprint =
                        some (get_fingerprint dm))) = true := by
                      rw [hget]
                      simp
                    have hp2 : (decide (get_fingerprint dm =
                        get_fingerprint dm)) = true := by simp
                    rw [hp1, hp2, hlc3dm]
                    simp only [if_pos rfl]
                    omega
                  · have hp1 : (decide ((dms.get? i).map get_fingerprint =
                        some f)) = false := by
                      rw [hget]
                      simp only [Option.map_some', decide_eq_false_iff_not]
                      intro he
                      exact hf (Option.some.inj he).symm
                    have hp2 : (decide (get_fingerprint dm = f)) = false :=
                      decide_eq_false (fun he => hf he.symm)
                    have hlcf : ctx3.local_counter f =
                        st.ctx.local_counter f := by
                      rw [hcnt3.1, hspec.2.1]
                      dsimp only
                      rw [if_neg hf]
                    rw [hp1, hp2, hlcf]
                    simp
                · rw [hatt, hatt3]
                  simp only [List.length_cons]
                  omega
                · simp only [List.length_cons]
                  omega
                · intro j dmj hij hget2
                  by_cases hji : j = i
                  · subst hji
                    rw [hget] at hget2
                    have hdmj : dm = dmj := Option.some.inj hget2
                    subst hdmj
                    refine iff_of_true ?_ ?_
                    · rw [hnew, List.append_assoc]
                      exact List.mem_append_right _ (by simp)
                    · rw [htake, ← hlc]
                      simp
                      omega
                  · exact hiff j dmj (by omega) hget2

/-- C4: skip-duplicate correctness.  With skipAlreadySent on, a history
manager supplied, no cancellation, no fatal results and auto-stop disabled,
an item is submitted exactly when its in-run occurrence number exceeds the
persisted count d of its fingerprint; hence of the k items carrying
fingerprint F exactly k − min(k, d) are submitted and min(k, d) — the first
min(k, d) occurrences in list order — are skipped, and the skip counter
accounts for exactly the non-submitted items. -/
theorem skip_duplicate_correctness (cfg : SenderConfig) (env : SendEnv)
    (res : Nat → DanmakuSendResult) (henv : ∀ j, env.api j = .ok (res j))
    (hskip : cfg.skip_sent = true) (hext : ∀ j, env.ext_stop j = false)
    (hwait : ∀ j, env.wait_stop j = false)
    (hnf : ∀ j, (process_send_result (res j)).2 = false)
    (hcnt : cfg.stop_after_count = 0) (htime : cfg.stop_after_time = 0)
    (dms : List Danmaku) (F : DanmakuFingerprint) (out : RunState)
    (hrun : send_danmaku_from_list cfg true env dms = .ok out) :
    (out.submitted.countP (fun j =>
        decide ((dms.get? j).map get_fingerprint = some F)) =
      dms.countP (fun d2 => decide (get_fingerprint d2 = F)) -
        env.db_count F) ∧
    (dms.countP (fun d2 => decide (get_fingerprint d2 = F)) -
        out.submitted.countP (fun j =>
          decide ((dms.get? j).map get_fingerprint = some F)) =
      min (dms.countP (fun d2 => decide (get_fingerprint d2 = F)))
        (env.db_count F)) ∧
    (∀ j dmj, dms.get? j = some dmj →
      (j ∈ out.submitted ↔ env.db_count (get_fingerprint dmj) <
        (dms.take (j + 1)).countP (fun d2 =>
          decide (get_fingerprint d2 = get_fingerprint dmj)))) ∧
    out.ctx.attempted_count = out.submitted.length ∧
    out.ctx.skipped_count + out.submitted.length = dms.length := by
  obtain ⟨new, hnew, hge, hcm, hatt, hskp, hiff⟩ :=
    send_loop_skip_characterization cfg env res henv hskip hext hwait hnf
      hcnt htime dms dms 0
      { ctx := { total := dms.length }, stop_set := false, submitted := [] }
      out rfl rfl (by simp) (fun f => by simp) (fun f => Or.inl rfl) hrun
  have hnew0 : out.submitted = new := by simpa using hnew
  have hk := hcm F
  simp only at hk
  refine ⟨?_, ?_, ?_, ?_, ?_⟩
  · rw [hnew0]
    simpa using hk
  · rw [hnew0]
    have h2 : new.countP (fun j =>
        decide ((dms.get? j).map get_fingerprint = some F)) =
        dms.countP (fun d2 => decide (get_fingerprint d2 = F)) -
          env.db_count F := by simpa using hk
    omega
  · intro j dmj hget
    exact hiff j dmj (Nat.zero_le j) hget
  · rw [hnew0]
    simpa using hatt
  · rw [hnew0]
    have h2 : out.ctx.skipped_count + new.length = 0 + dms.length := by
      simpa using hskp
    omega

/-- Results for the C4 witness run: every submission succeeds. -/
def resC4 : Nat → DanmakuSendResult := fun j =>
  { code := 0, is_success := true, raw_message := "ok",
    display_message := BiliDmErrorCode.SUCCESS.description,
    dmid := toString j }

/-- The duplicated item of the C4 witness run. -/
def dmA : Danmaku := { msg := "a", progress := 1 }

/-- Three copies of the same item. -/
def dmsC4 : List Danmaku := [dmA, dmA, dmA]

/-- Environment for the C4 witness run: the store holds 2 accepted records
for every fingerprint. -/
def envC4 : SendEnv :=
  { api := fun j => .ok (resC4 j), ext_stop := fun _ => false,
    wait_stop := fun _ => false, time_hit := fun _ => false,
    db_count := fun _ => 2 }

/-- Config for the C4 witness run: skip on, no auto-stop. -/
def cfgC4 : SenderConfig := { skip_sent := true }

/-- The C4 witness run's final state. -/
def outC4 : RunState :=
  match send_danmaku_from_list cfgC4 true envC4 dmsC4 with
  | .ok st => st
  | .error _ => { ctx := { total := 0 }, stop_set := false, submitted := [] }

theorem skip_duplicate_correctness_witness :
    dmsC4.countP (fun d2 =>
      decide (get_fingerprint d2 = get_fingerprint dmA)) = 3 ∧
    envC4.db_count (get_fingerprint dmA) = 2 ∧
    outC4.ctx.skipped_count = 2 ∧
    outC4.submitted = [2] ∧
    (outC4.submitted.countP (fun j =>
        decide ((dmsC4.get? j).map get_fingerprint =
          some (get_fingerprint dmA))) =
      dmsC4.countP (fun d2 =>
        decide (get_fingerprint d2 = get_fingerprint dmA)) -
        envC4.db_count (get_fingerprint dmA)) ∧
    (dmsC4.countP (fun d2 =>
        decide (get_fingerprint d2 = get_fingerprint dmA)) -
        outC4.submitted.countP (fun j =>
          decide ((dmsC4.get? j).map get_fingerprint =
            some (get_fingerprint dmA))) =
      min (dmsC4.countP (fun d2 =>
          decide (get_fingerprint d2 = get_fingerprint dmA)))
        (envC4.db_count (get_fingerprint dmA))) ∧
    outC4.ctx.skipped_count + outC4.submitted.length = dmsC4.length := by
  have h := skip_duplicate_correctness cfgC4 envC4 resC4 (fun j => rfl) rfl
    (fun j => rfl) (fun j => rfl) (fun j => rfl) rfl rfl dmsC4
    (get_fingerprint dmA) outC4 rfl
  exact ⟨by decide, rfl, by decide, by decide, h.1, h.2.1, h.2.2.2.2⟩

end DanmakuSender

